/-
Verification development for the VIN confidential inference proxy
(vin-node/src/receipt.ts with its embedded HTTP server,
vin-node/src/services/llm-proxy.ts, crypto.ts, x402.ts, and ism/src/index.ts).

Modelling conventions.  Byte strings are lists of Nat, each below 256.
SHA-256, base64url, hex and UTF-8 are implemented concretely and checked
against standard test vectors.  JSON values are an inductive type carrying the
two serializers the code uses: JSON.stringify in property-insertion order, and
the canonicalize npm package, i.e. RFC 8785 JCS with recursively sorted keys;
JS object properties with undefined values are modelled by their absence, which
both serializers treat identically.  The JavaScript Map is an
insertion-ordered association list with in-place update on set.  Ed25519 is
modelled symbolically: a signature carries the signer identity and the exact
message bytes, and verification succeeds exactly when the presented message
bytes and public key match — the functional contract the code relies on.
Platform services (DNS lookup, URL parsing, the fetch connection, AES-GCM and
secp256k1 operations, JSON.parse and the Zod schema) enter the handler models
as per-request oracles describing what those layers would do for the request
at hand; the handler control flow itself is translated from the source.
Wall-clock reads and random nonces are explicit parameters.
-/

import Mathlib

set_option maxRecDepth 100000

namespace VIN


def chunksOfAux (n : Nat) : Nat → List α → List (List α)
  | 0, _ => []
  | _, [] => []
  | fuel + 1, x :: xs => (x :: xs).take (n + 1) :: chunksOfAux n fuel ((x :: xs).drop (n + 1))

/-- Split a list into chunks of size n+1. -/
def chunksOf (n : Nat) (l : List α) : List (List α) := chunksOfAux n l.length l

def hexChars : List Char := "0123456789abcdef".data

def byteHex (b : Nat) : List Char := [hexChars.getD (b / 16 % 16) 'x', hexChars.getD (b % 16) 'x']

def toHex (bs : List Nat) : String := String.mk (bs.map byteHex).flatten

def utf8Char (c : Char) : List Nat :=
  if c.toNat < 128 then [c.toNat]
  else if c.toNat < 2048 then [192 + c.toNat / 64, 128 + c.toNat % 64]
  else if c.toNat < 65536 then [224 + c.toNat / 4096, 128 + c.toNat / 64 % 64, 128 + c.toNat % 64]
  else [240 + c.toNat / 262144, 128 + c.toNat / 4096 % 64, 128 + c.toNat / 64 % 64,
    128 + c.toNat % 64]

def utf8Encode (s : String) : List Nat := (s.data.map utf8Char).flatten

/-- The 64 SHA-256 round constants. -/
def sha256K : List Nat :=
  [1116352408, 1899447441, 3049323471, 3921009573, 961987163, 1508970993,
   2453635748, 2870763221, 3624381080, 310598401, 607225278, 1426881987,
   1925078388, 2162078206, 2614888103, 3248222580, 3835390401, 4022224774,
   264347078, 604807628, 770255983, 1249150122, 1555081692, 1996064986,
   2554220882, 2821834349, 2952996808, 3210313671, 3336571891, 3584528711,
   113926993, 338241895, 666307205, 773529912, 1294757372, 1396182291,
   1695183700, 1986661051, 2177026350, 2456956037, 2730485921, 2820302411,
   3259730800, 3345764771, 3516065817, 3600352804, 4094571909, 275423344,
   430227734, 506948616, 659060556, 883997877, 958139571, 1322822218,
   1537002063, 1747873779, 1955562222, 2024104815, 2227730452, 2361852424,
   2428436474, 2756734187, 3204031479, 3329325298]

/-- The initial SHA-256 hash state. -/
def sha256H0 : List Nat :=
  [1779033703, 3144134277, 1013904242, 2773480762,
   1359893119, 2600822924, 528734635, 1541459225]

def rotr32 (n x : Nat) : Nat := ((x >>> n) ||| (x <<< (32 - n))) % 4294967296

def sha256BigSigma0 (x : Nat) : Nat := rotr32 2 x ^^^ rotr32 13 x ^^^ rotr32 22 x

def sha256BigSigma1 (x : Nat) : Nat := rotr32 6 x ^^^ rotr32 11 x ^^^ rotr32 25 x

def sha256SmallSigma0 (x : Nat) : Nat := rotr32 7 x ^^^ rotr32 18 x ^^^ (x >>> 3)

def sha256SmallSigma1 (x : Nat) : Nat := rotr32 17 x ^^^ rotr32 19 x ^^^ (x >>> 10)

/-- SHA-256 padding: append 0x80, zeros, and the 64-bit big-endian bit length. -/
def sha256Pad (msg : List Nat) : List Nat :=
  let L := msg.length
  let zeros := (119 - L % 64) % 64
  let bitLen := L * 8
  msg ++ [128] ++ List.replicate zeros 0 ++
    ((List.range 8).map fun i => bitLen >>> ((7 - i) * 8) % 256)

/-- Big-endian 32-bit words from a list of bytes. -/
def bytesToWords (bs : List Nat) : List Nat :=
  (chunksOf 3 bs).map fun c => c.getD 0 0 * 16777216 + c.getD 1 0 * 65536 + c.getD 2 0 * 256 +
    c.getD 3 0

/-- Extend the 16 message-schedule words of a block to 64. -/
def sha256Schedule (w16 : List Nat) : List Nat :=
  (List.range 48).foldl (fun w _ =>
    let n := w.length
    w ++ [(sha256SmallSigma1 (w.getD (n - 2) 0) + w.getD (n - 7) 0 +
      sha256SmallSigma0 (w.getD (n - 15) 0) + w.getD (n - 16) 0) % 4294967296]) w16

/-- One round of the SHA-256 compression function on state [a,b,c,d,e,f,g,h]. -/
def sha256Round (st : List Nat) (kw : Nat × Nat) : List Nat :=
  let a := st.getD 0 0
  let b := st.getD 1 0
  let c := st.getD 2 0
  let d := st.getD 3 0
  let e := st.getD 4 0
  let f := st.getD 5 0
  let g := st.getD 6 0
  let h := st.getD 7 0
  let t1 := (h + sha256BigSigma1 e + ((e &&& f) ^^^ ((4294967295 - e) &&& g)) + kw.1 + kw.2) %
    4294967296
  let t2 := (sha256BigSigma0 a + ((a &&& b) ^^^ (a &&& c) ^^^ (b &&& c))) % 4294967296
  [(t1 + t2) % 4294967296, a, b, c, (d + t1) % 4294967296, e, f, g]

/-- Compress one 64-byte block into the running hash state. -/
def sha256Block (hs : List Nat) (block : List Nat) : List Nat :=
  let w := sha256Schedule (bytesToWords block)
  let st := (sha256K.zip w).foldl sha256Round hs
  (hs.zip st).map fun p => (p.1 + p.2) % 4294967296

/-- SHA-256 of a byte list, as a list of 32 bytes. -/
def sha256Bytes (msg : List Nat) : List Nat :=
  let final := (chunksOf 63 (sha256Pad msg)).foldl sha256Block sha256H0
  final.flatMap fun w => [w >>> 24 % 256, w >>> 16 % 256, w >>> 8 % 256, w % 256]

/-- hashText in receipt.ts: lowercase-hex SHA-256 over the UTF-8 bytes of a string. -/
def hashText (t : String) : String := toHex (sha256Bytes (utf8Encode t))

/-- The base64url alphabet (source: toBase64Url replaces + / and strips =). -/
def b64Chars : List Char := "ABCDEFGHIJKLMNOPQRSTUVWXYZabcdefghijklmnopqrstuvwxyz0123456789-_".data

def b64CharOf (n : Nat) : Char := b64Chars.getD n 'A'

def b64IndexOf (c : Char) : Nat := (b64Chars.indexOf c)

/-- Bytes to base64 sextets, final quantum truncated, matching padding-stripped output. -/
def b64Encode : List Nat → List Nat
  | [] => []
  | [a] => [a / 4, a % 4 * 16]
  | [a, b] => [a / 4, a % 4 * 16 + b / 16, b % 16 * 4]
  | a :: b :: c :: rest =>
    a / 4 :: (a % 4 * 16 + b / 16) :: (b % 16 * 4 + c / 64) :: c % 64 :: b64Encode rest

/-- Base64 sextets back to bytes (Buffer.from(str, 'base64') on unpadded input). -/
def b64Decode : List Nat → List Nat
  | [] => []
  | [_] => []
  | [w, x] => [w * 4 + x / 16]
  | [w, x, y] => [w * 4 + x / 16, x % 16 * 16 + y / 4]
  | w :: x :: y :: z :: rest =>
    (w * 4 + x / 16) :: (x % 16 * 16 + y / 4) :: (y % 4 * 64 + z) :: b64Decode rest

/-- toBase64Url in receipt.ts: base64 with - and _ and padding stripped. -/
def toBase64Url (bs : List Nat) : String := String.mk ((b64Encode bs).map b64CharOf)

/-- fromBase64Url in receipt.ts. -/
def fromBase64Url (s : String) : List Nat := b64Decode (s.data.map b64IndexOf)

/-- A decimal digit character. -/
def digitChar (n : Nat) : Char := hexChars.getD (n % 10) 'x'

def natDigitsF : Nat → Nat → List Char
  | 0, _ => []
  | f + 1, n => if n < 10 then [digitChar n] else natDigitsF f (n / 10) ++ [digitChar (n % 10)]

/-- Decimal representation of a Nat. -/
def natRepr (n : Nat) : String := String.mk (natDigitsF (n + 1) n)

/-- Decimal representation of an Int, as JSON.stringify prints integral numbers. -/
def intRepr : Int → String
  | .ofNat n => natRepr n
  | .negSucc n => "-" ++ natRepr (n + 1)

/-- JSON values.  Optional object properties that are undefined in JS are modelled
by their absence from the property list, which is how both JSON.stringify and the
canonicalize package treat them. -/
inductive Json where
  | null : Json
  | bool : Bool → Json
  | num : Int → Json
  | str : String → Json
  | arr : List Json → Json
  | obj : List (String × Json) → Json

/-- JSON string escaping as JSON.stringify performs it. -/
def escapeChar (c : Char) : List Char :=
  if c = '"' then ['\\', '"']
  else if c = '\\' then ['\\', '\\']
  else if c.toNat = 8 then ['\\', 'b']
  else if c.toNat = 12 then ['\\', 'f']
  else if c = '\n' then ['\\', 'n']
  else if c = '\r' then ['\\', 'r']
  else if c = '\t' then ['\\', 't']
  else if c.toNat < 32 then '\\' :: 'u' :: '0' :: '0' :: byteHex c.toNat
  else [c]

def escapeString (s : String) : String :=
  "\"" ++ String.mk (s.data.map escapeChar).flatten ++ "\""

def commaJoin : List String → String
  | [] => ""
  | [s] => s
  | s :: t :: rest => s ++ "," ++ commaJoin (t :: rest)

/-- Lexicographic comparison of char lists by code point (for ASCII keys this is
exactly the UTF-16 code-unit order that JS string comparison, and hence the key
sorting of the canonicalize package, uses). -/
def charListLt : List Char → List Char → Bool
  | [], [] => false
  | [], _ :: _ => true
  | _ :: _, [] => false
  | a :: as, b :: bs =>
    if a.toNat < b.toNat then true else if b.toNat < a.toNat then false else charListLt as bs

def strLt (a b : String) : Bool := charListLt a.data b.data

def insertPairSorted (p : String × String) : List (String × String) → List (String × String)
  | [] => [p]
  | q :: qs => if strLt p.1 q.1 then p :: q :: qs else q :: insertPairSorted p qs

/-- Key-sort of serialized properties, as Object.keys(o).sort() inside canonicalize. -/
def sortStrPairs : List (String × String) → List (String × String)
  | [] => []
  | p :: ps => insertPairSorted p (sortStrPairs ps)

mutual

/-- Shared JSON serializer.  sortKeys = false gives JSON.stringify (insertion
order); sortKeys = true gives the canonicalize npm package, i.e. RFC 8785 JCS
with recursively sorted object keys. -/
def serJsonB (sortKeys : Bool) : Json → String
  | .null => "null"
  | .bool b => if b then "true" else "false"
  | .num i => intRepr i
  | .str s => escapeString s
  | .arr xs => "[" ++ commaJoin (serListB sortKeys xs) ++ "]"
  | .obj kvs =>
    "\x7b" ++ commaJoin (((if sortKeys then sortStrPairs (serPairsB sortKeys kvs)
      else serPairsB sortKeys kvs)).map fun kv => escapeString kv.1 ++ ":" ++ kv.2) ++ "\x7d"
termination_by structural j => j

def serListB (sortKeys : Bool) : List Json → List String
  | [] => []
  | x :: xs => serJsonB sortKeys x :: serListB sortKeys xs
termination_by structural l => l

def serPairsB (sortKeys : Bool) : List (String × Json) → List (String × String)
  | [] => []
  | (k, v) :: rest => (k, serJsonB sortKeys v) :: serPairsB sortKeys rest
termination_by structural l => l

end

/-- JSON.stringify on a defined value. -/
def jsonStringify (j : Json) : String := serJsonB false j

/-- The canonicalize npm package (RFC 8785 JCS) on a defined value. -/
def jcsSerialize (j : Json) : String := serJsonB true j

/-- 32-byte little-endian decomposition of a Nat (mod 2^256). -/
def natToBytes32 (n : Nat) : List Nat := (List.range 32).map fun i => n >>> (8 * i) % 256

/-- Symbolic Ed25519 private key: an abstract seed. -/
structure EdPrivateKey where
  seed : Nat

/-- Symbolic Ed25519 public key bytes derived from a private key. -/
def edPublicKey (k : EdPrivateKey) : List Nat := natToBytes32 k.seed

/-- Symbolic Ed25519 signature bytes: the signer identity followed by the exact
message bytes.  This models the functional contract the code relies on: a
signature verifies against exactly the message it was produced over and the
public key of its producer. -/
def edSign (msg : List Nat) (k : EdPrivateKey) : List Nat := edPublicKey k ++ msg

/-- Symbolic Ed25519 verification (see edSign). -/
def edVerify (sig msg pub : List Nat) : Bool := sig.take 32 == pub && sig.drop 32 == msg

/-- A JavaScript Map: entries in insertion order, set on an existing key updates
it in place, delete removes it, iteration follows entry order. -/
structure JsMap (β : Type) where
  entries : List (String × β)

def JsMap.empty : JsMap β := ⟨[]⟩

def JsMap.hasKey (m : JsMap β) (k : String) : Bool := m.entries.any fun e => e.1 == k

def JsMap.getKey (m : JsMap β) (k : String) : Option β :=
  (m.entries.find? fun e => e.1 == k).map fun e => e.2

def JsMap.setKey (m : JsMap β) (k : String) (v : β) : JsMap β :=
  if m.hasKey k then ⟨m.entries.map fun e => if e.1 == k then (k, v) else e⟩
  else ⟨m.entries ++ [(k, v)]⟩

def JsMap.deleteKey (m : JsMap β) (k : String) : JsMap β :=
  ⟨m.entries.filter fun e => e.1 != k⟩

def JsMap.size (m : JsMap β) : Nat := m.entries.length

/-- ActionRequestV0 from vin-node/src/types (optional fields model absent/undefined). -/
structure ActionRequestV0 where
  schema : String
  request_id : Option String
  action_type : String
  policy_id : String
  prompt : Option String
  inputs : Option Json
  constraints : Option Json
  llm : Option Json

/-- OutputV0 from vin-node/src/types. -/
structure OutputV0 where
  schema : String
  format : String
  text : String
  clean_text : String

/-- ReceiptV0 from vin-node/src/types. -/
structure ReceiptV0 where
  schema : String
  version : String
  node_pubkey : String
  request_id : Option String
  action_type : String
  policy_id : String
  inputs_commitment : String
  constraints_commitment : String
  llm_commitment : String
  output_clean_hash : String
  output_transport_hash : String
  iat : Int
  exp : Int
  nonce : String
  attestation : Json
  payment : Json
  sig : String

/-- The node keypair (NodeKeys in keys.ts). -/
structure NodeKeys where
  privateKey : EdPrivateKey
  publicKey : List Nat

/-- Options bag of createReceipt. -/
structure CreateOptions where
  validitySeconds : Option Int := none
  attestation : Option Json := none
  payment : Option Json := none

/-- canonicalJson in receipt.ts: the canonicalize package returns undefined on
undefined input, and the wrapper then throws. -/
def canonicalJson : Option Json → Except String String
  | none => .error "Failed to canonicalize JSON"
  | some j => .ok (jcsSerialize j)

/-- hashJson in receipt.ts: hex SHA-256 of the UTF-8 bytes of the canonical JSON. -/
def hashJson (v : Option Json) : Except String String :=
  (canonicalJson v).map fun s => toHex (sha256Bytes (utf8Encode s))

/-- The receipt payload object that createReceipt signs and verifyReceipt
rebuilds: note the schema value vin.receipt_payload.v0 and the absence of a
version property, in the insertion order of the source object literals. -/
def receiptPayloadJson (node_pubkey : String) (request_id : Option String)
    (action_type policy_id inputs_commitment constraints_commitment llm_commitment
      output_clean_hash output_transport_hash : String) (iat exp : Int) (nonce : String)
    (attestation payment : Json) : Json :=
  Json.obj ([("schema", Json.str "vin.receipt_payload.v0"),
    ("node_pubkey", Json.str node_pubkey)] ++
    (match request_id with
      | none => []
      | some r => [("request_id", Json.str r)]) ++
    [("action_type", Json.str action_type),
     ("policy_id", Json.str policy_id),
     ("inputs_commitment", Json.str inputs_commitment),
     ("constraints_commitment", Json.str constraints_commitment),
     ("llm_commitment", Json.str llm_commitment),
     ("output_clean_hash", Json.str output_clean_hash),
     ("output_transport_hash", Json.str output_transport_hash),
     ("iat", Json.num iat),
     ("exp", Json.num exp),
     ("nonce", Json.str nonce),
     ("attestation", attestation),
     ("payment", payment)])

/-- createReceipt in receipt.ts.  The wall clock and the random nonce are passed
in explicitly; Except models the throw inside hashJson/canonicalJson. -/
def createReceipt (request : ActionRequestV0) (output : OutputV0) (keys : NodeKeys)
    (now : Int) (nonce : String) (options : CreateOptions) : Except String ReceiptV0 := do
  let validitySeconds := options.validitySeconds.getD 600
  let inputsCommitment ← hashJson request.inputs
  let constraintsCommitment ← hashJson (some (request.constraints.getD (Json.obj [])))
  let llmCommitment ← hashJson (some (request.llm.getD (Json.obj [])))
  let att := options.attestation.getD (Json.obj [("type", Json.str "none")])
  let pay := options.payment.getD (Json.obj [("type", Json.str "none")])
  let nodePubkey := toBase64Url keys.publicKey
  let payloadJson := receiptPayloadJson nodePubkey request.request_id request.action_type
    request.policy_id inputsCommitment constraintsCommitment llmCommitment
    (hashText output.clean_text) (hashText output.text) now (now + validitySeconds) nonce att pay
  let payloadStr ← canonicalJson (some payloadJson)
  let signature := edSign (utf8Encode payloadStr) keys.privateKey
  .ok { schema := "vin.receipt.v0"
        version := "0.1"
        node_pubkey := nodePubkey
        request_id := request.request_id
        action_type := request.action_type
        policy_id := request.policy_id
        inputs_commitment := inputsCommitment
        constraints_commitment := constraintsCommitment
        llm_commitment := llmCommitment
        output_clean_hash := hashText output.clean_text
        output_transport_hash := hashText output.text
        iat := now
        exp := now + validitySeconds
        nonce := nonce
        attestation := att
        payment := pay
        sig := toBase64Url signature }

/-- Result shape of verifyReceipt. -/
structure VerifyResult where
  valid : Bool
  reason : Option String
deriving DecidableEq, Repr

/-- The replay-cache key of a receipt (template node_pubkey:nonce in receipt.ts). -/
def nonceKey (receipt : ReceiptV0) : String := receipt.node_pubkey ++ ":" ++ receipt.nonce

/-- The stateless tail of verifyReceipt (steps 4-7): commitment and output-hash
recomputation and the signature check over the rebuilt payload.  None of these
steps touches the seenNonces Map, so they are factored out of the stateful part. -/
def verifyChecks (request : ActionRequestV0) (output : OutputV0) (receipt : ReceiptV0) :
    VerifyResult :=
  match hashJson request.inputs with
  | .error e => { valid := false, reason := some ("verification_error: " ++ e) }
  | .ok ic =>
    if receipt.inputs_commitment != ic then
      { valid := false, reason := some "inputs_commitment_mismatch" }
    else
      match hashJson (some (request.constraints.getD (Json.obj []))) with
      | .error e => { valid := false, reason := some ("verification_error: " ++ e) }
      | .ok cc =>
        if receipt.constraints_commitment != cc then
          { valid := false, reason := some "constraints_commitment_mismatch" }
        else
          match hashJson (some (request.llm.getD (Json.obj []))) with
          | .error e => { valid := false, reason := some ("verification_error: " ++ e) }
          | .ok lc =>
            if receipt.llm_commitment != lc then
              { valid := false, reason := some "llm_commitment_mismatch" }
            else if receipt.output_clean_hash != hashText output.clean_text then
              { valid := false, reason := some "output_clean_hash_mismatch" }
            else if receipt.output_transport_hash != hashText output.text then
              { valid := false, reason := some "output_transport_hash_mismatch" }
            else
              let payloadJson := receiptPayloadJson receipt.node_pubkey receipt.request_id
                receipt.action_type receipt.policy_id receipt.inputs_commitment
                receipt.constraints_commitment receipt.llm_commitment
                receipt.output_clean_hash receipt.output_transport_hash receipt.iat
                receipt.exp receipt.nonce receipt.attestation receipt.payment
              match canonicalJson (some payloadJson) with
              | .error e => { valid := false, reason := some ("verification_error: " ++ e) }
              | .ok pstr =>
                if edVerify (fromBase64Url receipt.sig) (utf8Encode pstr)
                    (fromBase64Url receipt.node_pubkey) then
                  { valid := true, reason := none }
                else
                  { valid := false, reason := some "signature_invalid" }

/-- verifyReceipt in receipt.ts.  The module-level seenNonces Map is threaded as
explicit state; the try/catch around the body becomes the verification_error
branches on the hashJson results.  Mutations performed before a throw persist,
exactly as in the source. -/
def verifyReceipt (request : ActionRequestV0) (output : OutputV0) (receipt : ReceiptV0)
    (seenNonces : JsMap Int) (now : Int) : VerifyResult × JsMap Int :=
  if receipt.schema != "vin.receipt.v0" then
    ({ valid := false, reason := some "invalid_schema" }, seenNonces)
  else if receipt.iat > now + 60 then
    ({ valid := false, reason := some "issued_in_future" }, seenNonces)
  else if receipt.exp < now then
    ({ valid := false, reason := some "expired" }, seenNonces)
  else if seenNonces.hasKey (nonceKey receipt) then
    ({ valid := false, reason := some "replay_detected" }, seenNonces)
  else
    let recorded := seenNonces.setKey (nonceKey receipt) receipt.exp
    let swept : JsMap Int := ⟨recorded.entries.filter fun e => !(e.2 < now)⟩
    (verifyChecks request output receipt, swept)

/-- Hex-digit value (position in the lowercase hex alphabet). -/
def hexVal (c : Char) : Nat := hexChars.indexOf c

/-- Buffer.from(hex, 'hex'): decode pairs of hex digits to bytes. -/
def fromHexChars : List Char → List Nat
  | a :: b :: rest => (hexVal a * 16 + hexVal b) :: fromHexChars rest
  | _ => []

def fromHex (s : String) : List Nat := fromHexChars s.data

/-- A chat message of the decrypted LLMRequest. -/
structure ChatMessage where
  role : String
  content : String

/-- The decrypted LLMRequest (llm-proxy.ts).  temperature is irrelevant to every
claim and is modelled as an integral number. -/
structure LLMRequest where
  provider_url : String
  api_key : String
  model : String
  messages : List ChatMessage
  max_tokens : Option Int := none
  temperature : Option Int := none
  headers : List (String × String) := []

structure LLMResponse where
  text : String
  model : String
  usage : Option Json := none

/-- hashForCommitment in crypto.ts: SHA-256 hex over the UTF-8 bytes of the
JSON.stringify serialization (string inputs are hashed as-is). -/
def hashForCommitment (data : Json) : String :=
  toHex (sha256Bytes (utf8Encode (match data with
    | .str s => s
    | j => jsonStringify j)))

/-- The object the /v1/generate handler passes to hashForCommitment:
provider_url, model, messages in that insertion order; api_key excluded. -/
def commitmentObj (r : LLMRequest) : Json :=
  Json.obj [("provider_url", .str r.provider_url), ("model", .str r.model),
    ("messages", .arr (r.messages.map fun m =>
      Json.obj [("role", .str m.role), ("content", .str m.content)]))]

/-- checkAndCacheNonce in the server: sweep expired entries, reject if present,
record with a 10-minute expiry otherwise. -/
def checkAndCacheNonce (nonce : String) (m : JsMap Int) (now : Int) : Bool × JsMap Int :=
  let cleaned : JsMap Int := ⟨m.entries.filter fun e => !(e.2 < now)⟩
  if cleaned.hasKey nonce then (false, cleaned)
  else (true, cleaned.setKey nonce (now + 600000))

/-- The request body of POST /v1/generate. -/
structure GenBody where
  encrypted_payload : Option String := none
  ephemeral_pubkey : Option String := none
  nonce : Option String := none
  user_pubkey : Option String := none
  request : Option ActionRequestV0 := none

/-- ECIES encrypt() output (crypto.ts). -/
structure EncryptedOut where
  ciphertext : String
  ephemeralPubkey : String
  nonce : String

/-- Environment of one /v1/generate invocation: the outcomes the platform and
crypto layers would produce for this request (parsePublicKey, decrypt,
JSON.parse, the Zod schema, callLLM, encrypt), plus configuration and the
clock/randomness read inside createReceipt. -/
structure GenEnv where
  hasPayment : Bool
  parsePublicKeyR : Except String (List Nat)
  decryptR : Except String String
  jsonParseR : Except String Json
  schemaR : Except String LLMRequest
  callLLMR : Except String LLMResponse
  encryptR : EncryptedOut
  receiptNow : Int
  receiptNonce : String
  allowLegacy : Bool

/-- Client-visible outcome of POST /v1/generate. -/
inductive GenOutcome where
  | paymentRequired
  | replayDetected
  | invalidPayload (message : String)
  | legacyModeDisabled
  | missingPayload
  | generationFailed (message : String)
  | confidentialOk (encrypted_response response_ephemeral_pubkey response_nonce : String)
      (receipt : ReceiptV0)
  | legacyOk (output : OutputV0) (receipt : ReceiptV0)

/-- The legacy branch (body.request) and the missing-payload fallback of the
/v1/generate handler. -/
def legacyOrMissing (env : GenEnv) (body : GenBody) (keys : NodeKeys) (nonces : JsMap Int) :
    GenOutcome × JsMap Int :=
  match body.request with
  | none => (.missingPayload, nonces)
  | some reqBody =>
    if !env.allowLegacy then (.legacyModeDisabled, nonces)
    else
      match env.callLLMR with
      | .error e => (.generationFailed e, nonces)
      | .ok llmResponse =>
        let output : OutputV0 :=
          { schema := "vin.output.v0", format := "plain",
            text := llmResponse.text, clean_text := llmResponse.text }
        let actionRequest : ActionRequestV0 :=
          { schema := "vin.action_request.v0", request_id := none,
            action_type := "compose_post", policy_id := "P0_COMPOSE_POST_V1",
            prompt := some (reqBody.prompt.getD ""), inputs := none,
            constraints := none, llm := none }
        match createReceipt actionRequest output keys env.receiptNow env.receiptNonce {} with
        | .error e => (.generationFailed e, nonces)
        | .ok receipt => (.legacyOk output receipt, nonces)

/-- The POST /v1/generate handler in receipt.ts (server part), with the
encryptedNonces Map threaded as state.  Uncaught throws of parsePublicKey,
decrypt, callLLM and createReceipt land in the outer catch, which returns the
generation_failed kind carrying the message of the thrown error. -/
def handleGenerate (env : GenEnv) (body : GenBody) (keys : NodeKeys)
    (nonces : JsMap Int) (now : Int) : GenOutcome × JsMap Int :=
  if !env.hasPayment then (.paymentRequired, nonces)
  else
    match body.encrypted_payload, body.ephemeral_pubkey, body.nonce, body.user_pubkey with
    | some ep, some eph, some nz, some up =>
      if ep == "" || eph == "" || nz == "" || up == "" then legacyOrMissing env body keys nonces
      else
        match checkAndCacheNonce nz nonces now with
        | (false, nonces1) => (.replayDetected, nonces1)
        | (true, nonces1) =>
          match env.parsePublicKeyR with
          | .error e => (.generationFailed e, nonces1)
          | .ok _userPubkey =>
            match env.decryptR with
            | .error e => (.generationFailed e, nonces1)
            | .ok _decrypted =>
              match env.jsonParseR with
              | .error _ => (.invalidPayload "Decrypted payload is not valid JSON", nonces1)
              | .ok _raw =>
                match env.schemaR with
                | .error _ => (.invalidPayload "Payload validation failed", nonces1)
                | .ok llmRequest =>
                  let inputsCommitment := hashForCommitment (commitmentObj llmRequest)
                  match env.callLLMR with
                  | .error e => (.generationFailed e, nonces1)
                  | .ok llmResponse =>
                    let output : OutputV0 :=
                      { schema := "vin.output.v0", format := "plain",
                        text := llmResponse.text, clean_text := llmResponse.text }
                    let actionRequest : ActionRequestV0 :=
                      { schema := "vin.action_request.v0", request_id := none,
                        action_type := "confidential_llm_call",
                        policy_id := "P2_CONFIDENTIAL_PROXY_V1",
                        prompt := some ("[commitment:" ++ inputsCommitment ++ "]"),
                        inputs := none, constraints := none, llm := none }
                    match createReceipt actionRequest output keys env.receiptNow
                        env.receiptNonce {} with
                    | .error e => (.generationFailed e, nonces1)
                    | .ok receipt =>
                      (.confidentialOk env.encryptR.ciphertext env.encryptR.ephemeralPubkey
                        env.encryptR.nonce receipt, nonces1)
    | _, _, _, _ => legacyOrMissing env body keys nonces

/-- The compile-time allowlist of provider hosts. -/
def ALLOWED_PROVIDER_HOSTS : List String :=
  ["api.openai.com", "api.anthropic.com", "api.together.xyz", "api.groq.com",
   "generativelanguage.googleapis.com", "api.mistral.ai", "api.perplexity.ai",
   "api.deepseek.com", "openrouter.ai"]

/-- net.isIPv4: four dot-separated decimal parts, each at most 255. -/
def isIPv4 (s : String) : Bool :=
  let parts := s.splitOn "."
  parts.length == 4 && parts.all fun p => match p.toNat? with
    | some n => n ≤ 255
    | none => false

/-- net.isIPv6, approximated as containing a colon; only the routing between the
IPv4 and IPv6 branches of isBlockedIP depends on it. -/
def isIPv6 (s : String) : Bool := s.data.contains ':'

/-- isBlockedIP in llm-proxy.ts, with fuel for the ::ffff: unwrapping recursion
(each unwrap shortens the string, so the fuel never runs out). -/
def isBlockedIPF : Nat → String → Bool
  | 0, _ => false
  | fuel + 1, ip =>
    if ip.toLower.startsWith "::ffff:" then isBlockedIPF fuel (ip.drop 7)
    else if isIPv4 ip then
      let parts := (ip.splitOn ".").map fun p => p.toNat?.getD 0
      let p0 := parts.getD 0 0
      let p1 := parts.getD 1 0
      p0 == 10 || p0 == 127 || (p0 == 172 && 16 ≤ p1 && p1 ≤ 31) || (p0 == 192 && p1 == 168) ||
        (p0 == 169 && p1 == 254) || p0 == 0 || (p0 == 100 && 64 ≤ p1 && p1 ≤ 127)
    else if isIPv6 ip then
      let lower := ip.toLower
      lower == "::" || lower == "::1" || lower.startsWith "::1/" || lower.startsWith "fe80:" ||
        lower.startsWith "fc" || lower.startsWith "fd"
    else false

def isBlockedIP (ip : String) : Bool := isBlockedIPF (ip.length + 1) ip

/-- An entry of the DNS pin cache. -/
structure DnsEntry where
  ip : String
  expires : Int

/-- resolveAndCache in llm-proxy.ts.  The Bun.dns.lookup result for this call is
passed in as the lookup function. -/
def resolveAndCache (lookup : String → List String) (cache : JsMap DnsEntry) (now : Int)
    (hostname : String) : Except String (String × JsMap DnsEntry) :=
  let fresh : Except String (String × JsMap DnsEntry) :=
    match lookup hostname with
    | [] => .error ("DNS resolution failed for " ++ hostname)
    | addr :: _ =>
      if isBlockedIP addr then
        .error ("Invalid provider_url: resolves to blocked IP " ++ addr)
      else
        let c1 := cache.setKey hostname ⟨addr, now + 60000⟩
        let c2 : JsMap DnsEntry := ⟨c1.entries.filter fun e => !(e.2.expires < now)⟩
        .ok (addr, c2)
  match cache.getKey hostname with
  | some entry => if entry.expires > now then .ok (entry.ip, cache) else fresh
  | none => fresh

/-- What new URL(u) yields, for the fields the code reads. -/
structure UrlParts where
  protocol : String
  hostname : String

/-- validateProviderUrl in llm-proxy.ts; new URL is the platform parser, passed
in as an oracle. -/
def validateProviderUrl (urlParse : String → Option UrlParts)
    (lookup : String → List String) (cache : JsMap DnsEntry) (now : Int)
    (urlString : String) : Except String (String × JsMap DnsEntry) :=
  match urlParse urlString with
  | none => .error "Invalid provider_url: not a valid URL"
  | some parsed =>
    if parsed.protocol != "https:" then .error "Invalid provider_url: must use HTTPS"
    else if !(ALLOWED_PROVIDER_HOSTS.contains parsed.hostname) then
      .error ("Invalid provider_url: host " ++ parsed.hostname ++ " not in allowlist")
    else resolveAndCache lookup cache now parsed.hostname

def startsWithList : List Char → List Char → Bool
  | _, [] => true
  | [], _ :: _ => false
  | h :: hs, n :: ns => h == n && startsWithList hs ns

def containsSubList : List Char → List Char → Bool
  | [], needle => needle.isEmpty
  | h :: hs, needle => startsWithList (h :: hs) needle || containsSubList hs needle

/-- url.includes(needle). -/
def containsSub (hay needle : String) : Bool := containsSubList hay.data needle.data

/-- detectProvider in llm-proxy.ts. -/
def detectProvider (url : String) : String :=
  if containsSub url "anthropic.com" then "anthropic"
  else if containsSub url "openai.com" then "openai"
  else "unknown"

/-- The connection target of fetch(urlString): the runtime receives the hostname
URL and resolves it again at connect time with the live DNS. -/
def fetchConnectIp (urlParse : String → Option UrlParts) (connectLookup : String → List String)
    (urlString : String) : String :=
  match urlParse urlString with
  | some parsed => (connectLookup parsed.hostname).headD ""
  | none => ""

/-- callLLM in llm-proxy.ts, observed through the addresses involved: it runs
validateProviderUrl (which pins checkLookup's answer in the cache and returns
the pinned IP, which callLLM drops), then callAnthropic/callOpenAI call
fetch(req.provider_url) — so the connection goes to whatever the live DNS
(connectLookup) says at connect time.  Returns (pinned IP, connect IP, cache). -/
def callLLMConnect (urlParse : String → Option UrlParts)
    (checkLookup connectLookup : String → List String) (cache : JsMap DnsEntry) (now : Int)
    (req : LLMRequest) : Except String (String × String × JsMap DnsEntry) :=
  match validateProviderUrl urlParse checkLookup cache now req.provider_url with
  | .error e => .error e
  | .ok (pinnedIp, cache1) =>
    .ok (pinnedIp, fetchConnectIp urlParse connectLookup req.provider_url, cache1)

/-- The generic bounded LRU cache with TTL. -/
structure LRUCache (V : Type) where
  cache : JsMap (V × Int)
  maxSize : Nat
  defaultTtlMs : Int

/-- LRUCache.set: evict the first-inserted entry when at capacity, then delete
and re-append the key so it moves to the end. -/
def LRUCache.setKey (c : LRUCache V) (k : String) (v : V) (now : Int) (ttlMs : Option Int) :
    LRUCache V :=
  let afterEvict : JsMap (V × Int) :=
    if c.cache.size ≥ c.maxSize then
      match c.cache.entries.head? with
      | some oldest => c.cache.deleteKey oldest.1
      | none => c.cache
    else c.cache
  let afterDelete := afterEvict.deleteKey k
  { c with cache := ⟨afterDelete.entries ++ [(k, (v, now + ttlMs.getD c.defaultTtlMs))]⟩ }

/-- Result shape of getPaymentInfo. -/
structure PaymentHeaderInfo where
  type : String
  payment_header_hash : Option String
deriving DecidableEq, Repr

/-- getPaymentInfo in x402.ts: despite the comment above it, the value it
returns is the hex encoding of the first 32 bytes of the UTF-8 header value
(data.slice(0, 32)), not a hash of it. -/
def getPaymentInfo (paymentHeader : Option String) : PaymentHeaderInfo :=
  match paymentHeader with
  | none => { type := "none", payment_header_hash := none }
  | some h => { type := "x402.v2", payment_header_hash := some (toHex ((utf8Encode h).take 32)) }

/-- An approved input source of the ISM. -/
structure ApprovedSource where
  id : String
  type : String
  pubkey : Option String := none
  contract : Option String := none
  chain_id : Option Int := none

/-- ISM construction configuration. -/
structure ISMConfig where
  ism_id : String
  private_key : EdPrivateKey
  approved_sources : List ApprovedSource
  maxInputSize : Option Nat := none
  maxClockDriftMs : Option Int := none

/-- A raw input submitted to attest. -/
structure RawInput where
  data : Json
  source_id : String
  source_type : String
  source_signature : Option String := none
  block_hash : Option String := none
  block_number : Option Int := none

/-- The mutable state captured by a createISM closure: the per-instance sequence
counter and the insertion-ordered replay Set. -/
structure ISMState where
  sequenceCounter : Int
  replayCache : List String

/-- An input attestation as attest produces it (attest never sets
source_pubkey, so the field is omitted). -/
structure InputAttestation where
  schema : String
  ism_id : String
  ism_pubkey : String
  input_hash : String
  input_type : String
  input_source : String
  received_at : Int
  sequence : Int
  source_signature : Option String
  block_hash : Option String
  tee_attestation : Json
  sig : String

/-- The attestation object without sig, in the property insertion order of the
attest construction (undefined optional fields are omitted, as JSON.stringify
omits them). -/
def attestationPayloadJson (a : InputAttestation) : Json :=
  Json.obj ([("schema", Json.str a.schema),
    ("ism_id", Json.str a.ism_id),
    ("ism_pubkey", Json.str a.ism_pubkey),
    ("input_hash", Json.str a.input_hash),
    ("input_type", Json.str a.input_type),
    ("input_source", Json.str a.input_source),
    ("received_at", Json.num a.received_at),
    ("sequence", Json.num a.sequence)] ++
    (match a.source_signature with
      | none => []
      | some s => [("source_signature", Json.str s)]) ++
    (match a.block_hash with
      | none => []
      | some b => [("block_hash", Json.str b)]) ++
    [("tee_attestation", a.tee_attestation)])

/-- Step 3 of attest: a string input is used as-is, an object is
JSON.stringify-serialized. -/
def rawInputData (input : RawInput) : String :=
  match input.data with
  | .str s => s
  | j => jsonStringify j

/-- The attestation payload record of steps 9-10 of attest (sig still empty). -/
def attestPayloadRecord (config : ISMConfig) (st : ISMState) (input : RawInput) (now : Int) :
    InputAttestation :=
  { schema := "ism.input.v0"
    ism_id := config.ism_id
    ism_pubkey := toHex (edPublicKey config.private_key)
    input_hash := toHex (sha256Bytes (utf8Encode (rawInputData input)))
    input_type := input.source_type
    input_source := input.source_id
    received_at := now
    sequence := st.sequenceCounter + 1
    source_signature := input.source_signature
    block_hash := input.block_hash
    tee_attestation := Json.obj [("type", Json.str "none")]
    sig := "" }

/-- The attestation attest returns: the payload record with sig set to the
base64url Ed25519 signature over the SHA-256 of the UTF-8 bytes of the
JSON.stringify serialization of the payload. -/
def attestSuccess (config : ISMConfig) (st : ISMState) (input : RawInput) (now : Int) :
    InputAttestation :=
  { attestPayloadRecord config st input now with
    sig := toBase64Url (edSign (sha256Bytes (utf8Encode (jsonStringify
      (attestationPayloadJson (attestPayloadRecord config st input now)))))
      config.private_key) }

/-- Step 6 of attest: the optional Ed25519 check of the source signature over
the input bytes. -/
def sourceSigOk (source : ApprovedSource) (input : RawInput) (inputBytes : List Nat) : Bool :=
  if source.type == "api_signed" && source.pubkey.isSome then
    match input.source_signature with
    | none => false
    | some s => edVerify (fromBase64Url s) inputBytes (fromHex (source.pubkey.getD ""))
  else true

/-- attest in ism/src/index.ts, with the closure state explicit and the
injected clock value passed as now. -/
def attest (config : ISMConfig) (st : ISMState) (input : RawInput) (now : Int) :
    Except String InputAttestation × ISMState :=
  match config.approved_sources.find? fun s => s.id == input.source_id with
  | none => (.error "Input rejected", st)
  | some source =>
    if source.type != input.source_type then (.error "Input rejected", st)
    else
      let inputBytes := utf8Encode (rawInputData input)
      if inputBytes.length > config.maxInputSize.getD 1048576 then (.error "Input too large", st)
      else
        let inputHash := toHex (sha256Bytes inputBytes)
        let replayKey := input.source_id ++ ":" ++ inputHash
        if st.replayCache.contains replayKey then (.error "Duplicate input rejected", st)
        else
          if !(sourceSigOk source input inputBytes) then (.error "Input rejected", st)
          else if source.type == "blockchain_event" && input.block_hash.isNone then
            (.error "Input rejected", st)
          else
            let cacheEvicted :=
              if st.replayCache.length ≥ 10000 then st.replayCache.drop 1 else st.replayCache
            let st1 : ISMState := { st with replayCache := cacheEvicted ++ [replayKey] }
            if now < 0 then (.error "Clock error", st1)
            else
              (.ok (attestSuccess config st input now),
                { st1 with sequenceCounter := st.sequenceCounter + 1 })

/-- verify in ism/src/index.ts: timestamp drift bound, then Ed25519 over the
SHA-256 of the JSON.stringify of the attestation minus sig, checked with the
ism_pubkey embedded in the attestation. -/
def ismVerify (a : InputAttestation) (now : Int) (maxDriftMs : Int) : VerifyResult :=
  if a.received_at > now + maxDriftMs then
    { valid := false, reason := some "Attestation timestamp is in the future" }
  else
    let payloadStr := jsonStringify (attestationPayloadJson a)
    let payloadHash := sha256Bytes (utf8Encode payloadStr)
    if edVerify (fromBase64Url a.sig) payloadHash (fromHex a.ism_pubkey) then
      { valid := true, reason := none }
    else
      { valid := false, reason := some "Invalid ISM signature" }

/-- The total core of hashJson on a defined value. -/
def hashJsonD (j : Json) : String := toHex (sha256Bytes (utf8Encode (jcsSerialize j)))

/-- The receipt createReceipt emits when the inputs commitment hash succeeds. -/
def builtReceipt (request : ActionRequestV0) (output : OutputV0) (keys : NodeKeys)
    (now : Int) (nonce : String) (options : CreateOptions) (i : Json) : ReceiptV0 :=
  let validitySeconds := options.validitySeconds.getD 600
  let att := options.attestation.getD (Json.obj [("type", Json.str "none")])
  let pay := options.payment.getD (Json.obj [("type", Json.str "none")])
  { schema := "vin.receipt.v0"
    version := "0.1"
    node_pubkey := toBase64Url keys.publicKey
    request_id := request.request_id
    action_type := request.action_type
    policy_id := request.policy_id
    inputs_commitment := hashJsonD i
    constraints_commitment := hashJsonD (request.constraints.getD (Json.obj []))
    llm_commitment := hashJsonD (request.llm.getD (Json.obj []))
    output_clean_hash := hashText output.clean_text
    output_transport_hash := hashText output.text
    iat := now
    exp := now + validitySeconds
    nonce := nonce
    attestation := att
    payment := pay
    sig := toBase64Url (edSign (utf8Encode (jcsSerialize (receiptPayloadJson
      (toBase64Url keys.publicKey) request.request_id request.action_type request.policy_id
      (hashJsonD i) (hashJsonD (request.constraints.getD (Json.obj [])))
      (hashJsonD (request.llm.getD (Json.obj []))) (hashText output.clean_text)
      (hashText output.text) now (now + validitySeconds) nonce att pay)))
      keys.privateKey) }

/-- One verification call of an interleaved sequence. -/
structure VCall where
  request : ActionRequestV0
  output : OutputV0
  receipt : ReceiptV0
  now : Int

def wKeys : NodeKeys := { privateKey := ⟨77⟩, publicKey := edPublicKey ⟨77⟩ }

def wInputs : Json := Json.obj [("prompt", Json.str "Write a short tweet about AI")]

def wReq : ActionRequestV0 :=
  { schema := "vin.action_request.v0", request_id := some "test-001",
    action_type := "compose_post", policy_id := "P0_COMPOSE_POST_V1", prompt := none,
    inputs := some wInputs,
    constraints := some (Json.obj [("max_chars", Json.num 280)]),
    llm := some (Json.obj [("provider", Json.str "anthropic"),
      ("model_id", Json.str "claude-3.5-sonnet"), ("params", Json.obj [])]) }

def wOut : OutputV0 :=
  { schema := "vin.output.v0", format := "plain",
    text := "AI is transforming how we work and create.",
    clean_text := "AI is transforming how we work and create." }

def wReceipt : ReceiptV0 := builtReceipt wReq wOut wKeys 1700000000 "nonceA" {} wInputs

/-- The object the claim describes: the receipt with only sig removed, all
other fields retained (schema vin.receipt.v0 and version 0.1 included), in
field order. -/
def receiptMinusSigJson (r : ReceiptV0) : Json :=
  Json.obj ([("schema", Json.str r.schema),
    ("version", Json.str r.version),
    ("node_pubkey", Json.str r.node_pubkey)] ++
    (match r.request_id with
      | none => []
      | some q => [("request_id", Json.str q)]) ++
    [("action_type", Json.str r.action_type),
     ("policy_id", Json.str r.policy_id),
     ("inputs_commitment", Json.str r.inputs_commitment),
     ("constraints_commitment", Json.str r.constraints_commitment),
     ("llm_commitment", Json.str r.llm_commitment),
     ("output_clean_hash", Json.str r.output_clean_hash),
     ("output_transport_hash", Json.str r.output_transport_hash),
     ("iat", Json.num r.iat),
     ("exp", Json.num r.exp),
     ("nonce", Json.str r.nonce),
     ("attestation", r.attestation),
     ("payment", r.payment)])

/-- The outcomes a confidential request can produce after its envelope nonce
was recorded: the collapsed invalid_payload kind and the generic
generation_failed kind (no receipt, no response). -/
def GenOutcome.isFailureAfterNonceCheck : GenOutcome → Bool
  | .invalidPayload _ => true
  | .generationFailed _ => true
  | _ => false

/-- A confidential request body (scenario-style). -/
def c1Body : GenBody :=
  { encrypted_payload := some "CT", ephemeral_pubkey := some "EPH", nonce := some "NZ",
    user_pubkey := some "UPK", request := none }

/-- The scenario-2 decrypted request of the spec. -/
def c1LlmRequest : LLMRequest :=
  { provider_url := "https://api.anthropic.com/v1/messages", api_key := "sk-secret",
    model := "claude-3-haiku-20240307", messages := [⟨"user", "hi"⟩] }

/-- First-call environment for C10: decryption fails (any cause). -/
def c10Env1 : GenEnv :=
  { hasPayment := true, parsePublicKeyR := .ok [2], decryptR := .error "aes/gcm: invalid ghash tag",
    jsonParseR := .ok (Json.obj []), schemaR := .ok c1LlmRequest,
    callLLMR := .ok { text := "Hello!", model := "claude-3-haiku-20240307" },
    encryptR := ⟨"ct", "ek", "rn"⟩, receiptNow := 0, receiptNonce := "nB", allowLegacy := false }

/-- Second-call environment for C10: everything would succeed this time. -/
def c10Env2 : GenEnv :=
  { hasPayment := true, parsePublicKeyR := .ok [2], decryptR := .ok "pt",
    jsonParseR := .ok (Json.obj []), schemaR := .ok c1LlmRequest,
    callLLMR := .ok { text := "Hello!", model := "claude-3-haiku-20240307" },
    encryptR := ⟨"ct", "ek", "rn"⟩, receiptNow := 300000, receiptNonce := "nC",
    allowLegacy := false }

/-- Environment whose user public key fails to parse as a curve point. -/
def c6Env : GenEnv :=
  { hasPayment := true, parsePublicKeyR := .error "Point.fromHex: received invalid point",
    decryptR := .ok "pt", jsonParseR := .ok (Json.obj []), schemaR := .ok c1LlmRequest,
    callLLMR := .ok { text := "Hello!", model := "claude-3-haiku-20240307" },
    encryptR := ⟨"ct", "ek", "rn"⟩, receiptNow := 0, receiptNonce := "nD",
    allowLegacy := false }

/-- Environment whose envelope fails to open (AES-GCM tag failure). -/
def c6EnvB : GenEnv :=
  { hasPayment := true, parsePublicKeyR := .ok [2],
    decryptR := .error "aes/gcm: invalid ghash tag",
    jsonParseR := .ok (Json.obj []), schemaR := .ok c1LlmRequest,
    callLLMR := .ok { text := "Hello!", model := "claude-3-haiku-20240307" },
    encryptR := ⟨"ct", "ek", "rn"⟩, receiptNow := 0, receiptNonce := "nE",
    allowLegacy := false }

/-- Fully-successful environment for the confidential pipeline on the
scenario-2 request: payment accepted, key parses, envelope opens, schema
passes, upstream call succeeds. -/
def c1Env : GenEnv :=
  { hasPayment := true, parsePublicKeyR := .ok [2], decryptR := .ok "pt",
    jsonParseR := .ok (Json.obj []), schemaR := .ok c1LlmRequest,
    callLLMR := .ok { text := "Hello!", model := "claude-3-haiku-20240307" },
    encryptR := ⟨"ct", "ek", "rn"⟩, receiptNow := 1700000000, receiptNonce := "nF",
    allowLegacy := false }

/-- URL parser oracle for the C5 scenario. -/
def c5urlParse : String → Option UrlParts := fun s =>
  if s == "https://api.openai.com/v1/chat/completions" then
    some ⟨"https:", "api.openai.com"⟩
  else none

/-- Live DNS at the time of the second call: the attacker has flipped the
record to an address of their choosing. -/
def c5liveDns : String → List String := fun _ => ["6.6.6.6"]

/-- Pin cache carrying the resolution of the first call (expires in the
future). -/
def c5cache : JsMap DnsEntry := ⟨[("api.openai.com", ⟨"1.2.3.4", 50000⟩)]⟩

def c5req : LLMRequest :=
  { provider_url := "https://api.openai.com/v1/chat/completions", api_key := "k",
    model := "gpt-4", messages := [⟨"user", "hi"⟩] }

/-- Witness for C8: one fresh verification grows the repo-test cache state from
0 to 1 entries (and the LRU bound holds on a concrete cache at capacity 1). -/
def c8LruFixture : LRUCache String := ⟨⟨[("k0", ("v0", 99))]⟩, 1, 600000⟩

/-- The receipts of the unbounded-growth run: same node key, pairwise distinct
nonces (of pairwise distinct lengths), all expiring at 1000. -/
def cxNonce (i : Nat) : String := String.mk (List.replicate i 'a')

def cxReceipt (i : Nat) : ReceiptV0 :=
  { schema := "vin.receipt.v0", version := "0.1", node_pubkey := "pk", request_id := none,
    action_type := "t", policy_id := "p", inputs_commitment := "x",
    constraints_commitment := "x", llm_commitment := "x", output_clean_hash := "x",
    output_transport_hash := "x", iat := 0, exp := 1000, nonce := cxNonce i,
    attestation := Json.obj [], payment := Json.obj [], sig := "s" }

def cxStep (s : JsMap Int) (i : Nat) : JsMap Int := (verifyReceipt wReq wOut (cxReceipt i) s 0).2

def c9Config : ISMConfig :=
  { ism_id := "ism-A", private_key := ⟨9⟩,
    approved_sources := [{ id := "heartbeat-cron", type := "cron" }] }

def c9Input : RawInput :=
  { data := Json.obj [("beat", Json.num 1)], source_id := "heartbeat-cron",
    source_type := "cron" }

/-- The attestation the ISM produces for the heartbeat input. -/
def c9A : InputAttestation := attestSuccess c9Config ⟨0, []⟩ c9Input 1700005000

-- Theorems: supporting lemmas, then the claim theorems with their
-- witnesses and counterexamples.

theorem utf8Char_lt_256 (c : Char) : ∀ b ∈ utf8Char c, b < 256 := by
  have hv : c.toNat < 1114112 := by
    have := c.valid
    rcases this with h | ⟨_, h⟩
    · exact Nat.lt_trans h (by norm_num)
    · exact h
  intro b hb
  unfold utf8Char at hb
  split at hb
  · simp at hb; omega
  · split at hb
    · simp at hb
      rcases hb with h | h <;> omega
    · split at hb
      · simp at hb
        rcases hb with h | h | h <;> omega
      · simp at hb
        rcases hb with h | h | h | h <;> omega

theorem utf8Encode_lt_256 (s : String) : ∀ b ∈ utf8Encode s, b < 256 := by
  intro b hb
  unfold utf8Encode at hb
  rw [List.mem_flatten] at hb
  rcases hb with ⟨l, hl, hb⟩
  rw [List.mem_map] at hl
  rcases hl with ⟨c, _, rfl⟩
  exact utf8Char_lt_256 c b hb

theorem b64Decode_b64Encode (bs : List Nat) (h : ∀ b ∈ bs, b < 256) :
    b64Decode (b64Encode bs) = bs := by
  induction bs using b64Encode.induct with
  | case1 => rfl
  | case2 a =>
    have : a < 256 := h a (by simp)
    simp only [b64Encode, b64Decode]
    congr 1
    omega
  | case3 a b =>
    have ha : a < 256 := h a (by simp)
    have hb : b < 256 := h b (by simp)
    simp only [b64Encode, b64Decode]
    have h1 : (a % 4 * 16 + b / 16) / 16 = a % 4 := by omega
    have h2 : (a % 4 * 16 + b / 16) % 16 = b / 16 := by omega
    have h3 : b % 16 * 4 / 4 = b % 16 := by omega
    rw [h1, h2, h3]
    congr 1
    · omega
    · congr 1
      omega
  | case4 a b c rest ih =>
    have ha : a < 256 := h a (by simp)
    have hb : b < 256 := h b (by simp)
    have hc : c < 256 := h c (by simp)
    have hrest : ∀ x ∈ rest, x < 256 := fun x hx => h x (by simp [hx])
    simp only [b64Encode, b64Decode]
    have h1 : (a % 4 * 16 + b / 16) / 16 = a % 4 := by omega
    have h2 : (a % 4 * 16 + b / 16) % 16 = b / 16 := by omega
    have h3 : (b % 16 * 4 + c / 64) / 4 = b % 16 := by omega
    have h4 : (b % 16 * 4 + c / 64) % 4 = c / 64 := by omega
    rw [h1, h2, h3, h4, ih hrest]
    congr 1
    · omega
    congr 1
    · omega
    congr 1
    omega

theorem b64Encode_lt_64 (bs : List Nat) (h : ∀ b ∈ bs, b < 256) :
    ∀ x ∈ b64Encode bs, x < 64 := by
  induction bs using b64Encode.induct with
  | case1 => simp [b64Encode]
  | case2 a =>
    have : a < 256 := h a (by simp)
    simp [b64Encode]
    omega
  | case3 a b =>
    have ha : a < 256 := h a (by simp)
    have hb : b < 256 := h b (by simp)
    simp [b64Encode]
    omega
  | case4 a b c rest ih =>
    have ha : a < 256 := h a (by simp)
    have hb : b < 256 := h b (by simp)
    have hc : c < 256 := h c (by simp)
    have hrest : ∀ x ∈ rest, x < 256 := fun x hx => h x (by simp [hx])
    intro x hx
    simp only [b64Encode] at hx
    simp at hx
    rcases hx with h1 | h1 | h1 | h1 | h1
    · omega
    · omega
    · omega
    · omega
    · exact ih hrest x h1

theorem b64IndexOf_b64CharOf (n : Nat) (h : n < 64) : b64IndexOf (b64CharOf n) = n := by
  interval_cases n <;> decide

theorem fromBase64Url_toBase64Url (bs : List Nat) (h : ∀ b ∈ bs, b < 256) :
    fromBase64Url (toBase64Url bs) = bs := by
  unfold fromBase64Url toBase64Url
  simp only [String.data]
  rw [List.map_map]
  have : (b64Encode bs).map (b64IndexOf ∘ b64CharOf) = (b64Encode bs).map id := by
    apply List.map_congr_left
    intro x hx
    exact b64IndexOf_b64CharOf x (b64Encode_lt_64 bs h x hx)
  rw [this, List.map_id, b64Decode_b64Encode bs h]

example : intRepr 1700000005 = "1700000005" := by decide
example : intRepr (-42) = "-42" := by decide
example : intRepr 0 = "0" := by decide

example : jcsSerialize (Json.obj [("b", .num 2), ("a", .obj [("d", .num 4), ("c", .num 3)])]) =
    "\x7b\"a\":\x7b\"c\":3,\"d\":4\x7d,\"b\":2\x7d" := by decide

example : jsonStringify (Json.obj [("b", .num 2), ("a", .arr [.str "hi", .bool true, .null])]) =
    "\x7b\"b\":2,\"a\":[\"hi\",true,null]\x7d" := by decide

theorem natToBytes32_length (n : Nat) : (natToBytes32 n).length = 32 := by
  simp [natToBytes32]

theorem natToBytes32_lt_256 (n : Nat) : ∀ b ∈ natToBytes32 n, b < 256 := by
  intro b hb
  simp [natToBytes32] at hb
  rcases hb with ⟨i, _, rfl⟩
  exact Nat.mod_lt _ (by norm_num)

theorem edPublicKey_lt_256 (k : EdPrivateKey) : ∀ b ∈ edPublicKey k, b < 256 :=
  natToBytes32_lt_256 k.seed

theorem edVerify_edSign (msg : List Nat) (k : EdPrivateKey) :
    edVerify (edSign msg k) msg (edPublicKey k) = true := by
  simp [edVerify, edSign, List.take_append_of_le_length, List.drop_append_of_le_length,
    natToBytes32_length, edPublicKey]

theorem edSign_lt_256 (msg : List Nat) (k : EdPrivateKey) (h : ∀ b ∈ msg, b < 256) :
    ∀ b ∈ edSign msg k, b < 256 := by
  intro b hb
  simp [edSign, edPublicKey] at hb
  rcases hb with hb | hb
  · exact natToBytes32_lt_256 k.seed b hb
  · exact h b hb

theorem hexVal_hexChars (n : Nat) (h : n < 16) : hexVal (hexChars.getD n 'x') = n := by
  interval_cases n <;> decide

theorem fromHex_toHex (bs : List Nat) (h : ∀ b ∈ bs, b < 256) : fromHex (toHex bs) = bs := by
  unfold fromHex toHex
  simp only [String.data]
  induction bs with
  | nil => rfl
  | cons b rest ih =>
    have hb : b < 256 := h b (by simp)
    have hrest : ∀ x ∈ rest, x < 256 := fun x hx => h x (by simp [hx])
    simp only [List.map_cons, List.flatten_cons, byteHex]
    rw [List.cons_append, List.cons_append, List.nil_append]
    simp only [fromHexChars]
    rw [ih hrest]
    congr 1
    have h1 : b / 16 % 16 < 16 := Nat.mod_lt _ (by norm_num)
    have h2 : b % 16 < 16 := Nat.mod_lt _ (by norm_num)
    rw [hexVal_hexChars _ h1, hexVal_hexChars _ h2]
    omega

theorem find?_filter_keep {α} (l : List α) (p q : α → Bool) (a : α)
    (h : l.find? q = some a) (hp : p a = true) : (l.filter p).find? q = some a := by
  induction l with
  | nil => simp at h
  | cons x xs ih =>
    by_cases hq : q x = true
    · rw [List.find?_cons_of_pos _ hq] at h
      injection h with h
      subst h
      rw [List.filter_cons_of_pos hp, List.find?_cons_of_pos _ hq]
    · rw [List.find?_cons_of_neg _ (by simpa using hq)] at h
      by_cases hpx : p x = true
      · rw [List.filter_cons_of_pos hpx, List.find?_cons_of_neg _ (by simpa using hq)]
        exact ih h
      · rw [List.filter_cons_of_neg (by simpa using hpx)]
        exact ih h

theorem JsMap.getKey_hasKey {β} (m : JsMap β) (k : String) (v : β)
    (h : m.getKey k = some v) : m.hasKey k = true := by
  unfold JsMap.getKey at h
  unfold JsMap.hasKey
  rcases Option.map_eq_some'.mp h with ⟨e, he, _⟩
  rw [List.any_eq_true]
  refine ⟨e, List.mem_of_find?_eq_some he, ?_⟩
  have := List.find?_some he
  simpa using this

theorem JsMap.getKey_setKey_fresh {β} (m : JsMap β) (k : String) (v : β)
    (h : m.hasKey k = false) : (m.setKey k v).getKey k = some v := by
  unfold JsMap.setKey
  rw [h]
  simp only [Bool.false_eq_true, if_false]
  unfold JsMap.getKey
  rw [List.find?_append]
  have : m.entries.find? (fun e => e.1 == k) = none := by
    rw [List.find?_eq_none]
    intro e he
    unfold JsMap.hasKey at h
    rw [Bool.eq_false_iff, Ne, List.any_eq_true] at h
    by_contra hc
    exact h ⟨e, he, by simpa using hc⟩
  rw [this]
  simp [List.find?]

theorem JsMap.getKey_setKey_other {β} (m : JsMap β) (k k2 : String) (v : β)
    (hk : m.hasKey k = false) (w : β) (h : m.getKey k2 = some w) :
    (m.setKey k v).getKey k2 = some w := by
  unfold JsMap.setKey
  rw [hk]
  simp only [Bool.false_eq_true, if_false]
  unfold JsMap.getKey at h ⊢
  rw [List.find?_append]
  rcases Option.map_eq_some'.mp h with ⟨e, he, hev⟩
  rw [he]
  simp [hev]

/-- The nonce record written by a verification that reaches the replay step
survives, with its value, inside the post-state. -/
theorem verifyReceipt_records (request : ActionRequestV0) (output : OutputV0)
    (receipt : ReceiptV0) (s : JsMap Int) (now : Int)
    (hschema : receipt.schema = "vin.receipt.v0") (hiat : receipt.iat ≤ now + 60)
    (hexp : now ≤ receipt.exp) (hfresh : s.hasKey (nonceKey receipt) = false) :
    ((verifyReceipt request output receipt s now).2).getKey (nonceKey receipt) =
      some receipt.exp := by
  have hs : (receipt.schema != "vin.receipt.v0") = false := by simp [hschema]
  have h1 : ¬(receipt.iat > now + 60) := by omega
  have h2 : ¬(receipt.exp < now) := by omega
  have hrec : (s.setKey (nonceKey receipt) receipt.exp).getKey (nonceKey receipt) =
      some receipt.exp := JsMap.getKey_setKey_fresh s _ _ hfresh
  have hsurv : ∀ (m : JsMap Int), m.getKey (nonceKey receipt) = some receipt.exp →
      (JsMap.getKey ⟨m.entries.filter fun e => !(e.2 < now)⟩ (nonceKey receipt)) =
        some receipt.exp := by
    intro m hm
    unfold JsMap.getKey at hm ⊢
    rcases Option.map_eq_some'.mp hm with ⟨e, he, hev⟩
    have hpe : (!(e.2 < now : Bool)) = true := by
      have : e.2 = receipt.exp := hev
      simp [this]
      omega
    rw [find?_filter_keep _ _ _ e he hpe]
    simp [hev]
  unfold verifyReceipt
  rw [hs]
  simp only [Bool.false_eq_true, if_false, if_neg h1, if_neg h2, hfresh]
  exact hsurv (s.setKey (nonceKey receipt) receipt.exp) hrec

theorem hashJson_some (j : Json) : hashJson (some j) = .ok (hashJsonD j) := rfl

theorem hashJson_none : hashJson none = .error "Failed to canonicalize JSON" := rfl

theorem createReceipt_some (request : ActionRequestV0) (output : OutputV0) (keys : NodeKeys)
    (now : Int) (nonce : String) (options : CreateOptions) (i : Json)
    (h : request.inputs = some i) :
    createReceipt request output keys now nonce options =
      .ok (builtReceipt request output keys now nonce options i) := by
  unfold createReceipt builtReceipt
  rw [h]
  rfl

theorem createReceipt_none (request : ActionRequestV0) (output : OutputV0) (keys : NodeKeys)
    (now : Int) (nonce : String) (options : CreateOptions) (h : request.inputs = none) :
    createReceipt request output keys now nonce options =
      .error "Failed to canonicalize JSON" := by
  unfold createReceipt
  rw [h]
  rfl

theorem verifyChecks_builtReceipt (request : ActionRequestV0) (output : OutputV0)
    (keys : NodeKeys) (now : Int) (nonce : String) (options : CreateOptions) (i : Json)
    (hkeys : keys.publicKey = edPublicKey keys.privateKey) (h : request.inputs = some i) :
    verifyChecks request output (builtReceipt request output keys now nonce options i) =
      { valid := true, reason := none } := by
  unfold verifyChecks
  rw [h, hashJson_some]
  have hb : ∀ s : String, (s != s) = false := by intro s; simp
  simp only [builtReceipt, hashJson_some, hb, Bool.false_eq_true, if_false]
  simp only [canonicalJson]
  have hsig : edVerify
      (fromBase64Url (toBase64Url (edSign (utf8Encode (jcsSerialize (receiptPayloadJson
        (toBase64Url keys.publicKey) request.request_id request.action_type request.policy_id
        (hashJsonD i) (hashJsonD (request.constraints.getD (Json.obj [])))
        (hashJsonD (request.llm.getD (Json.obj []))) (hashText output.clean_text)
        (hashText output.text) now (now + options.validitySeconds.getD 600) nonce
        (options.attestation.getD (Json.obj [("type", Json.str "none")]))
        (options.payment.getD (Json.obj [("type", Json.str "none")])))))
        keys.privateKey)))
      (utf8Encode (jcsSerialize (receiptPayloadJson
        (toBase64Url keys.publicKey) request.request_id request.action_type request.policy_id
        (hashJsonD i) (hashJsonD (request.constraints.getD (Json.obj [])))
        (hashJsonD (request.llm.getD (Json.obj []))) (hashText output.clean_text)
        (hashText output.text) now (now + options.validitySeconds.getD 600) nonce
        (options.attestation.getD (Json.obj [("type", Json.str "none")]))
        (options.payment.getD (Json.obj [("type", Json.str "none")])))))
      (fromBase64Url (toBase64Url keys.publicKey)) = true := by
    rw [fromBase64Url_toBase64Url _ (edSign_lt_256 _ _ (utf8Encode_lt_256 _))]
    rw [hkeys, fromBase64Url_toBase64Url _ (edPublicKey_lt_256 _)]
    exact edVerify_edSign _ _
  simp only [hsig, if_true]

/-- A receipt fresh out of createReceipt verifies as valid while inside its
window and before its (node_pubkey, nonce) pair is recorded. -/
theorem verifyReceipt_valid_of_createReceipt (request : ActionRequestV0) (output : OutputV0)
    (keys : NodeKeys) (now : Int) (nonce : String) (options : CreateOptions)
    (receipt : ReceiptV0) (s : JsMap Int) (now2 : Int)
    (hkeys : keys.publicKey = edPublicKey keys.privateKey)
    (h : createReceipt request output keys now nonce options = .ok receipt)
    (hiat : receipt.iat ≤ now2 + 60) (hexp : now2 ≤ receipt.exp)
    (hfresh : s.hasKey (nonceKey receipt) = false) :
    (verifyReceipt request output receipt s now2).1 = { valid := true, reason := none } := by
  cases hi : request.inputs with
  | none => rw [createReceipt_none request output keys now nonce options hi] at h; cases h
  | some i =>
    rw [createReceipt_some request output keys now nonce options i hi] at h
    injection h with h
    subst h
    have hschema : (ReceiptV0.schema
        (builtReceipt request output keys now nonce options i) != "vin.receipt.v0") = false :=
      by rfl
    unfold verifyReceipt
    rw [hschema]
    simp only [Bool.false_eq_true, if_false, if_neg (by omega : ¬((builtReceipt request output
      keys now nonce options i).iat > now2 + 60)), if_neg (by omega :
      ¬((builtReceipt request output keys now nonce options i).exp < now2)), hfresh]
    exact verifyChecks_builtReceipt request output keys now nonce options i hkeys hi

/-- A verification call never removes a replay record that has not yet expired
at that call's time. -/
theorem verifyReceipt_preserves (request : ActionRequestV0) (output : OutputV0)
    (receipt : ReceiptV0) (s : JsMap Int) (t : Int) (K : String) (E : Int)
    (hs : s.getKey K = some E) (ht : t ≤ E) :
    ((verifyReceipt request output receipt s t).2).getKey K = some E := by
  unfold verifyReceipt
  split
  · exact hs
  · split
    · exact hs
    · split
      · exact hs
      · split
        · exact hs
        · rename_i hschema hiat hexp hfresh
          have h1 : (s.setKey (nonceKey receipt) receipt.exp).getKey K = some E :=
            JsMap.getKey_setKey_other s (nonceKey receipt) K receipt.exp
              (by simpa using hfresh) E hs
          unfold JsMap.getKey at h1 ⊢
          rcases Option.map_eq_some'.mp h1 with ⟨e, he, hev⟩
          have hpe : (!(e.2 < t : Bool)) = true := by
            have : e.2 = E := hev
            simp [this]
            omega
          simp only []
          rw [find?_filter_keep _ _ _ e he hpe]
          simp [hev]

/-- When the (node_pubkey, nonce) key of the presented receipt is in the cache
and the schema and time checks pass, verification reports replay_detected. -/
theorem verifyReceipt_replay_of_hasKey (request : ActionRequestV0) (output : OutputV0)
    (receipt : ReceiptV0) (s : JsMap Int) (now : Int)
    (hschema : receipt.schema = "vin.receipt.v0") (hiat : receipt.iat ≤ now + 60)
    (hexp : now ≤ receipt.exp) (hkey : s.hasKey (nonceKey receipt) = true) :
    (verifyReceipt request output receipt s now).1 =
      { valid := false, reason := some "replay_detected" } := by
  unfold verifyReceipt
  have hs : (receipt.schema != "vin.receipt.v0") = false := by simp [hschema]
  rw [hs]
  simp only [Bool.false_eq_true, if_false, if_neg (by omega : ¬(receipt.iat > now + 60)),
    if_neg (by omega : ¬(receipt.exp < now)), hkey, if_true]

/-- Claim C3: for every action request and output on which createReceipt
succeeds, the first verifyReceipt call on the produced receipt, made while the
receipt is inside its validity window and before its (node_pubkey, nonce) pair
is in the replay cache, returns valid = true. -/
theorem C3_create_verify_roundtrip (request : ActionRequestV0) (output : OutputV0)
    (keys : NodeKeys) (now : Int) (nonce : String) (options : CreateOptions)
    (receipt : ReceiptV0) (s : JsMap Int) (now2 : Int)
    (hkeys : keys.publicKey = edPublicKey keys.privateKey)
    (h : createReceipt request output keys now nonce options = .ok receipt)
    (hiat : receipt.iat ≤ now2 + 60) (hexp : now2 ≤ receipt.exp)
    (hfresh : s.hasKey (nonceKey receipt) = false) :
    (verifyReceipt request output receipt s now2).1 = { valid := true, reason := none } :=
  verifyReceipt_valid_of_createReceipt request output keys now nonce options receipt s now2
    hkeys h hiat hexp hfresh

/-- Witness for C3 at the repo's own receipt-test request and output. -/
theorem C3_create_verify_roundtrip_witness :
    (verifyReceipt wReq wOut wReceipt JsMap.empty 1700000100).1 =
      { valid := true, reason := none } :=
  C3_create_verify_roundtrip wReq wOut wKeys 1700000000 "nonceA" {} wReceipt JsMap.empty
    1700000100 rfl (createReceipt_some wReq wOut wKeys 1700000000 "nonceA" {} wInputs rfl)
    (by decide) (by decide) rfl

/-- Claim C4: once a verification has processed a receipt past its schema and
time checks (recording its pair), every later verification presenting the same
(node_pubkey, nonce) pair before the recorded exp — with any verifications in
between, each dated no later than that exp — passes its own schema and time
checks into the replay check and returns replay_detected; in particular the
same valid receipt verified twice within its TTL yields valid = true then
replay_detected (see the witness). -/
theorem C4_replay_detected_within_ttl
    (s0 : JsMap Int) (req1 : ActionRequestV0) (out1 : OutputV0) (r1 : ReceiptV0) (now1 : Int)
    (hschema1 : r1.schema = "vin.receipt.v0") (hiat1 : r1.iat ≤ now1 + 60)
    (hexp1 : now1 ≤ r1.exp) (hfresh : s0.hasKey (nonceKey r1) = false)
    (calls : List VCall) (hcalls : ∀ c ∈ calls, c.now ≤ r1.exp)
    (req2 : ActionRequestV0) (out2 : OutputV0) (r2 : ReceiptV0) (now2 : Int)
    (hpair_pk : r2.node_pubkey = r1.node_pubkey) (hpair_nonce : r2.nonce = r1.nonce)
    (hschema2 : r2.schema = "vin.receipt.v0") (hiat2 : r2.iat ≤ now2 + 60)
    (hexp2 : now2 ≤ r2.exp) (_hwin : now2 ≤ r1.exp) :
    (verifyReceipt req2 out2 r2
      (calls.foldl (fun s c => (verifyReceipt c.request c.output c.receipt s c.now).2)
        ((verifyReceipt req1 out1 r1 s0 now1).2)) now2).1 =
      { valid := false, reason := some "replay_detected" } := by
  have hrec := verifyReceipt_records req1 out1 r1 s0 now1 hschema1 hiat1 hexp1 hfresh
  have hinv : ∀ (cs : List VCall) (s : JsMap Int),
      s.getKey (nonceKey r1) = some r1.exp → (∀ c ∈ cs, c.now ≤ r1.exp) →
      (cs.foldl (fun s c => (verifyReceipt c.request c.output c.receipt s c.now).2)
        s).getKey (nonceKey r1) = some r1.exp := by
    intro cs
    induction cs with
    | nil => intro s hs _; exact hs
    | cons c cs ih =>
      intro s hs hc
      simp only [List.foldl_cons]
      exact ih _ (verifyReceipt_preserves c.request c.output c.receipt s c.now _ _ hs
        (hc c (by simp))) fun d hd => hc d (by simp [hd])
  have hkeyeq : nonceKey r2 = nonceKey r1 := by
    unfold nonceKey
    rw [hpair_pk, hpair_nonce]
  have hkey2 : (calls.foldl (fun s c => (verifyReceipt c.request c.output c.receipt s c.now).2)
      ((verifyReceipt req1 out1 r1 s0 now1).2)).hasKey (nonceKey r2) = true := by
    rw [hkeyeq]
    exact JsMap.getKey_hasKey _ _ _ (hinv calls _ hrec hcalls)
  exact verifyReceipt_replay_of_hasKey req2 out2 r2 _ now2 hschema2 hiat2 hexp2 hkey2

/-- Witness for C4: the repo's receipt-test receipt verified twice inside its
TTL yields valid = true, then replay_detected. -/
theorem C4_replay_detected_within_ttl_witness :
    (verifyReceipt wReq wOut wReceipt JsMap.empty 1700000100).1 =
      { valid := true, reason := none } ∧
    (verifyReceipt wReq wOut wReceipt
      ((verifyReceipt wReq wOut wReceipt JsMap.empty 1700000100).2) 1700000200).1 =
      { valid := false, reason := some "replay_detected" } := by
  constructor
  · exact verifyReceipt_valid_of_createReceipt wReq wOut wKeys 1700000000 "nonceA" {} wReceipt
      JsMap.empty 1700000100 rfl
      (createReceipt_some wReq wOut wKeys 1700000000 "nonceA" {} wInputs rfl)
      (by decide) (by decide) rfl
  · exact C4_replay_detected_within_ttl JsMap.empty wReq wOut wReceipt 1700000100 rfl
      (by decide) (by decide) rfl [] (by simp) wReq wOut wReceipt 1700000200 rfl rfl rfl
      (by decide) (by decide) (by decide)

/-- Claim C2 counterexample: for a receipt produced by createReceipt, the sig
does not validate the JCS bytes of the receipt-minus-sig object (which carries
schema vin.receipt.v0 and a version field), because the signed payload instead
uses schema vin.receipt_payload.v0 and has no version property. -/
theorem C2_sig_not_over_receipt_minus_sig :
    edVerify (fromBase64Url wReceipt.sig)
      (utf8Encode (jcsSerialize (receiptMinusSigJson wReceipt)))
      (fromBase64Url wReceipt.node_pubkey) = false := by decide

/-- Claim C2, amended: the sig of every receipt createReceipt emits is a valid
Ed25519 signature under node_pubkey over the UTF-8 bytes of the JCS encoding of
the payload object rebuilt from the receipt fields with sig and version removed
and schema replaced by vin.receipt_payload.v0 — the exact payload object
verifyReceipt rebuilds for its signature check. -/
theorem C2_sig_over_payload (request : ActionRequestV0) (output : OutputV0) (keys : NodeKeys)
    (now : Int) (nonce : String) (options : CreateOptions) (receipt : ReceiptV0)
    (hkeys : keys.publicKey = edPublicKey keys.privateKey)
    (h : createReceipt request output keys now nonce options = .ok receipt) :
    edVerify (fromBase64Url receipt.sig)
      (utf8Encode (jcsSerialize (receiptPayloadJson receipt.node_pubkey receipt.request_id
        receipt.action_type receipt.policy_id receipt.inputs_commitment
        receipt.constraints_commitment receipt.llm_commitment receipt.output_clean_hash
        receipt.output_transport_hash receipt.iat receipt.exp receipt.nonce
        receipt.attestation receipt.payment)))
      (fromBase64Url receipt.node_pubkey) = true := by
  cases hi : request.inputs with
  | none => rw [createReceipt_none request output keys now nonce options hi] at h; cases h
  | some i =>
    rw [createReceipt_some request output keys now nonce options i hi] at h
    injection h with h
    subst h
    simp only [builtReceipt]
    rw [fromBase64Url_toBase64Url _ (edSign_lt_256 _ _ (utf8Encode_lt_256 _))]
    rw [hkeys, fromBase64Url_toBase64Url _ (edPublicKey_lt_256 _)]
    exact edVerify_edSign _ _

/-- Witness for C2 at the repo's receipt-test data. -/
theorem C2_sig_over_payload_witness :
    edVerify (fromBase64Url wReceipt.sig)
      (utf8Encode (jcsSerialize (receiptPayloadJson wReceipt.node_pubkey wReceipt.request_id
        wReceipt.action_type wReceipt.policy_id wReceipt.inputs_commitment
        wReceipt.constraints_commitment wReceipt.llm_commitment wReceipt.output_clean_hash
        wReceipt.output_transport_hash wReceipt.iat wReceipt.exp wReceipt.nonce
        wReceipt.attestation wReceipt.payment)))
      (fromBase64Url wReceipt.node_pubkey) = true :=
  C2_sig_over_payload wReq wOut wKeys 1700000000 "nonceA" {} wReceipt rfl
    (createReceipt_some wReq wOut wKeys 1700000000 "nonceA" {} wInputs rfl)

/-- After the envelope nonce passes the replay check of a confidential
/v1/generate call, the nonce record is in the post-state no matter how the rest
of the pipeline fares: every later branch returns the state produced by
checkAndCacheNonce. -/
theorem handleGenerate_state_confidential (env : GenEnv) (body : GenBody) (keys : NodeKeys)
    (nonces : JsMap Int) (now : Int) (ep eph nz up : String)
    (hep : body.encrypted_payload = some ep) (heph : body.ephemeral_pubkey = some eph)
    (hnz : body.nonce = some nz) (hup : body.user_pubkey = some up)
    (hne : (ep == "" || eph == "" || nz == "" || up == "") = false)
    (hpay : env.hasPayment = true)
    (hfresh : (JsMap.hasKey ⟨nonces.entries.filter fun e => !(e.2 < now)⟩ nz) = false) :
    (handleGenerate env body keys nonces now).2 =
      JsMap.setKey ⟨nonces.entries.filter fun e => !(e.2 < now)⟩ nz (now + 600000) := by
  unfold handleGenerate checkAndCacheNonce
  rw [hep, heph, hnz, hup, hpay]
  simp only [Bool.not_true, Bool.false_eq_true, if_false, hne, hfresh]
  cases env.parsePublicKeyR with
  | error e => rfl
  | ok pk =>
    cases env.decryptR with
    | error e => rfl
    | ok d =>
      cases env.jsonParseR with
      | error e => rfl
      | ok raw =>
        cases env.schemaR with
        | error e => rfl
        | ok llmRequest =>
          cases env.callLLMR with
          | error e => rfl
          | ok llmResponse => rfl

/-- Claim C10: the envelope nonce is recorded before public-key parsing,
decryption and schema validation, so when a confidential request fails after
the nonce check (malformed user public key, failed decryption, schema
rejection, or upstream error), re-sending the identical request within the
10-minute window is rejected with replay_detected. -/
theorem C10_nonce_consumed_on_failure (env1 env2 : GenEnv) (body : GenBody)
    (keys1 keys2 : NodeKeys) (s0 : JsMap Int) (now1 now2 : Int) (ep eph nz up : String)
    (hep : body.encrypted_payload = some ep) (heph : body.ephemeral_pubkey = some eph)
    (hnz : body.nonce = some nz) (hup : body.user_pubkey = some up)
    (hne : (ep == "" || eph == "" || nz == "" || up == "") = false)
    (hpay1 : env1.hasPayment = true) (hpay2 : env2.hasPayment = true)
    (hfresh : (JsMap.hasKey ⟨s0.entries.filter fun e => !(e.2 < now1)⟩ nz) = false)
    (_hfail : ((handleGenerate env1 body keys1 s0 now1).1).isFailureAfterNonceCheck = true)
    (htime : now2 ≤ now1 + 600000) :
    (handleGenerate env2 body keys2 ((handleGenerate env1 body keys1 s0 now1).2) now2).1 =
      .replayDetected := by
  rw [handleGenerate_state_confidential env1 body keys1 s0 now1 ep eph nz up hep heph hnz hup
    hne hpay1 hfresh]
  have hset : JsMap.setKey ⟨s0.entries.filter fun e => !(e.2 < now1)⟩ nz (now1 + 600000) =
      ⟨(s0.entries.filter fun e => !(e.2 < now1)) ++ [(nz, now1 + 600000)]⟩ := by
    unfold JsMap.setKey
    rw [hfresh]
    simp
  rw [hset]
  unfold handleGenerate checkAndCacheNonce
  rw [hep, heph, hnz, hup, hpay2]
  have hkey : (JsMap.hasKey ⟨((s0.entries.filter fun e => !(e.2 < now1)) ++
      [(nz, now1 + 600000)]).filter fun e => !(e.2 < now2)⟩ nz) = true := by
    unfold JsMap.hasKey
    rw [List.any_eq_true]
    refine ⟨(nz, now1 + 600000), ?_, by simp⟩
    rw [List.mem_filter]
    refine ⟨by simp, ?_⟩
    simp only [decide_eq_true_eq]
    simp
    omega
  simp only [Bool.not_true, Bool.false_eq_true, if_false, hne, hkey, if_true]

/-- Witness for C10: a decryption failure consumes the nonce; the identical
request five minutes later is rejected as a replay. -/
theorem C10_nonce_consumed_on_failure_witness :
    (handleGenerate c10Env2 c1Body wKeys
      ((handleGenerate c10Env1 c1Body wKeys JsMap.empty 0).2) 300000).1 =
      .replayDetected :=
  C10_nonce_consumed_on_failure c10Env1 c10Env2 c1Body wKeys wKeys JsMap.empty 0 300000
    "CT" "EPH" "NZ" "UPK" rfl rfl rfl rfl rfl rfl rfl rfl rfl (by decide)

/-- Claim C6 counterexample: a curve-point parse failure on a confidential
request surfaces as the generation_failed kind carrying the cryptographic
error message — not as invalid_payload with the reason withheld. -/
theorem C6_counterexample_parse_failure :
    (handleGenerate c6Env c1Body wKeys JsMap.empty 0).1 =
      .generationFailed "Point.fromHex: received invalid point" := rfl

/-- Claim C6, amended: public-key parse failures and envelope-open failures on
a confidential request are not caught locally; they fall through to the outer
catch and surface as generation_failed (HTTP 500) with the underlying error
message reflected to the caller.  Only JSON-parse and schema failures after a
successful decryption produce invalid_payload. -/
theorem C6_crypto_failures_become_generation_failed (env : GenEnv) (body : GenBody)
    (keys : NodeKeys) (nonces : JsMap Int) (now : Int) (ep eph nz up : String)
    (hep : body.encrypted_payload = some ep) (heph : body.ephemeral_pubkey = some eph)
    (hnz : body.nonce = some nz) (hup : body.user_pubkey = some up)
    (hne : (ep == "" || eph == "" || nz == "" || up == "") = false)
    (hpay : env.hasPayment = true)
    (hfresh : (JsMap.hasKey ⟨nonces.entries.filter fun e => !(e.2 < now)⟩ nz) = false) :
    (∀ e, env.parsePublicKeyR = .error e →
      (handleGenerate env body keys nonces now).1 = .generationFailed e) ∧
    (∀ pk e, env.parsePublicKeyR = .ok pk → env.decryptR = .error e →
      (handleGenerate env body keys nonces now).1 = .generationFailed e) ∧
    (∀ pk d e, env.parsePublicKeyR = .ok pk → env.decryptR = .ok d →
      env.jsonParseR = .error e →
      (handleGenerate env body keys nonces now).1 =
        .invalidPayload "Decrypted payload is not valid JSON") ∧
    (∀ pk d raw e, env.parsePublicKeyR = .ok pk → env.decryptR = .ok d →
      env.jsonParseR = .ok raw → env.schemaR = .error e →
      (handleGenerate env body keys nonces now).1 =
        .invalidPayload "Payload validation failed") := by
  refine ⟨fun e he => ?_, fun pk e hpk he => ?_, fun pk d e hpk hd he => ?_,
    fun pk d raw e hpk hd hj he => ?_⟩
  · unfold handleGenerate checkAndCacheNonce
    rw [hep, heph, hnz, hup, hpay]
    simp only [Bool.not_true, Bool.false_eq_true, if_false, hne, hfresh, he]
  · unfold handleGenerate checkAndCacheNonce
    rw [hep, heph, hnz, hup, hpay]
    simp only [Bool.not_true, Bool.false_eq_true, if_false, hne, hfresh, hpk, he]
  · unfold handleGenerate checkAndCacheNonce
    rw [hep, heph, hnz, hup, hpay]
    simp only [Bool.not_true, Bool.false_eq_true, if_false, hne, hfresh, hpk, hd, he]
  · unfold handleGenerate checkAndCacheNonce
    rw [hep, heph, hnz, hup, hpay]
    simp only [Bool.not_true, Bool.false_eq_true, if_false, hne, hfresh, hpk, hd, hj, he]

/-- Witness for C6 (amended): an AES-GCM open failure yields generation_failed
with the library error message. -/
theorem C6_crypto_failures_witness :
    (handleGenerate c6EnvB c1Body wKeys JsMap.empty 0).1 =
      .generationFailed "aes/gcm: invalid ghash tag" :=
  (C6_crypto_failures_become_generation_failed c6EnvB c1Body wKeys JsMap.empty 0
    "CT" "EPH" "NZ" "UPK" rfl rfl rfl rfl rfl rfl rfl).2.1 [2]
    "aes/gcm: invalid ghash tag" rfl rfl

/-- Claim C1 counterexample, at the spec's own scenario-2 request: the
commitment the pipeline computes hashes the JSON.stringify serialization, whose
bytes differ from the RFC 8785 (JCS) serialization, so the commitment is not
the SHA-256 of the JCS bytes; and the receipt-building step of the pipeline
throws (hashJson of the absent inputs field), so the fully accepted request
ends in generation_failed and no receipt carrying any inputs_commitment is
emitted at all. -/
theorem C1_commitment_counterexample :
    jsonStringify (commitmentObj c1LlmRequest) ≠ jcsSerialize (commitmentObj c1LlmRequest) ∧
    hashForCommitment (commitmentObj c1LlmRequest) ≠
      toHex (sha256Bytes (utf8Encode (jcsSerialize (commitmentObj c1LlmRequest)))) ∧
    (handleGenerate c1Env c1Body wKeys JsMap.empty 0).1 =
      .generationFailed "Failed to canonicalize JSON" :=
  ⟨by decide, by decide, rfl⟩

/-- Claim C1, amended: for every confidential request the pipeline accepts, the
commitment it computes equals the SHA-256 (lowercase hex) of the UTF-8 bytes of
the JSON.stringify serialization of the object with provider_url, model and
messages in that insertion order (not the JCS serialization); the commitment is
embedded only in the action request's prompt, and createReceipt then throws on
the inputs-less confidential action request, so the request ends in
generation_failed and no receipt is emitted. -/
theorem C1_commitment_is_stringify_and_receipt_fails (env : GenEnv) (body : GenBody)
    (keys : NodeKeys) (nonces : JsMap Int) (now : Int) (ep eph nz up : String)
    (pk : List Nat) (d : String) (raw : Json) (llmRequest : LLMRequest)
    (llmResponse : LLMResponse)
    (hep : body.encrypted_payload = some ep) (heph : body.ephemeral_pubkey = some eph)
    (hnz : body.nonce = some nz) (hup : body.user_pubkey = some up)
    (hne : (ep == "" || eph == "" || nz == "" || up == "") = false)
    (hpay : env.hasPayment = true)
    (hfresh : (JsMap.hasKey ⟨nonces.entries.filter fun e => !(e.2 < now)⟩ nz) = false)
    (hpk : env.parsePublicKeyR = .ok pk) (hd : env.decryptR = .ok d)
    (hj : env.jsonParseR = .ok raw) (hs : env.schemaR = .ok llmRequest)
    (hc : env.callLLMR = .ok llmResponse) :
    hashForCommitment (commitmentObj llmRequest) =
      toHex (sha256Bytes (utf8Encode (jsonStringify (commitmentObj llmRequest)))) ∧
    (handleGenerate env body keys nonces now).1 =
      .generationFailed "Failed to canonicalize JSON" := by
  constructor
  · rfl
  · unfold handleGenerate checkAndCacheNonce
    rw [hep, heph, hnz, hup, hpay]
    simp only [Bool.not_true, Bool.false_eq_true, if_false, hne, hfresh, hpk, hd, hj, hs, hc]
    rw [createReceipt_none _ _ _ _ _ _ rfl]

/-- Witness for C1 (amended) at the scenario-2 request. -/
theorem C1_commitment_witness :
    hashForCommitment (commitmentObj c1LlmRequest) =
      toHex (sha256Bytes (utf8Encode (jsonStringify (commitmentObj c1LlmRequest)))) ∧
    (handleGenerate c1Env c1Body wKeys JsMap.empty 0).1 =
      .generationFailed "Failed to canonicalize JSON" :=
  C1_commitment_is_stringify_and_receipt_fails c1Env c1Body wKeys JsMap.empty 0
    "CT" "EPH" "NZ" "UPK" [2] "pt" (Json.obj []) c1LlmRequest
    { text := "Hello!", model := "claude-3-haiku-20240307" }
    rfl rfl rfl rfl rfl rfl rfl rfl rfl rfl rfl rfl

/-- Claim C5: with api.openai.com pinned at 1.2.3.4 and the live DNS flipped to
6.6.6.6, callLLM validates against the pinned 1.2.3.4 (the pin-cache hit does
ignore the new resolution) — but the connection itself, made by passing
req.provider_url to fetch, resolves the hostname afresh and goes to 6.6.6.6,
not to the pinned address. -/
theorem C5_connect_ignores_pinned_ip :
    callLLMConnect c5urlParse c5liveDns c5liveDns c5cache 10000 c5req =
      .ok ("1.2.3.4", "6.6.6.6", c5cache) ∧ ("6.6.6.6" : String) ≠ "1.2.3.4" :=
  ⟨rfl, by decide⟩

/-- Claim C7: getPaymentInfo does not hash the accepted payment header — for
the header value "whatever" it returns the hex of the first 32 UTF-8 bytes
("7768617465766572"), which is not the SHA-256 of the header; and the
/v1/generate handler calls createReceipt with no payment option, so any receipt
it could emit carries payment type none rather than a payment commitment. -/
theorem C7_payment_commitment_not_hashed :
    getPaymentInfo (some "whatever") =
      { type := "x402.v2", payment_header_hash := some "7768617465766572" } ∧
    "7768617465766572" ≠ hashText "whatever" ∧
    (∀ (request : ActionRequestV0) (output : OutputV0) (keys : NodeKeys) (now : Int)
      (nonce : String) (r : ReceiptV0),
      createReceipt request output keys now nonce {} = .ok r →
      r.payment = Json.obj [("type", Json.str "none")]) := by
  refine ⟨by decide, by decide, fun request output keys now nonce r h => ?_⟩
  cases hi : request.inputs with
  | none => rw [createReceipt_none request output keys now nonce {} hi] at h; cases h
  | some i =>
    rw [createReceipt_some request output keys now nonce {} i hi] at h
    injection h with h
    subst h
    rfl

/-- Witness for C7: the repo receipt-test receipt, built through the handler's
argumentless createReceipt call shape, carries payment type none. -/
theorem C7_payment_commitment_witness :
    wReceipt.payment = Json.obj [("type", Json.str "none")] :=
  C7_payment_commitment_not_hashed.2.2 wReq wOut wKeys 1700000000 "nonceA" wReceipt
    (createReceipt_some wReq wOut wKeys 1700000000 "nonceA" {} wInputs rfl)

theorem JsMap.size_deleteKey_le {β} (m : JsMap β) (k : String) :
    (m.deleteKey k).size ≤ m.size := by
  unfold JsMap.deleteKey JsMap.size
  exact List.length_filter_le _ _

/-- LRUCache.set keeps the cache within its capacity (capacity at least 1). -/
theorem LRUCache_setKey_size_le {V} (c : LRUCache V) (k : String) (v : V) (now : Int)
    (ttl : Option Int) (hsz : c.cache.size ≤ c.maxSize) (hmax : 1 ≤ c.maxSize) :
    ((LRUCache.setKey c k v now ttl).cache).size ≤ c.maxSize := by
  by_cases hge : c.cache.size ≥ c.maxSize
  · have hne : c.cache.entries ≠ [] := by
      intro hnil
      unfold JsMap.size at hge
      rw [hnil] at hge
      simp at hge
      omega
    rcases List.exists_cons_of_ne_nil hne with ⟨x, xs, hx⟩
    unfold LRUCache.setKey
    rw [if_pos hge, hx]
    simp only [List.head?_cons]
    unfold JsMap.deleteKey JsMap.size
    dsimp only
    rw [hx]
    rw [List.filter_cons_of_neg (by simp)]
    simp only [List.length_append, List.length_cons, List.length_nil]
    have h1 := List.length_filter_le (fun e => e.1 != x.1) xs
    have h2 := List.length_filter_le (fun e => e.1 != k)
      (List.filter (fun e => e.1 != x.1) xs)
    unfold JsMap.size at hsz hge
    rw [hx] at hsz hge
    simp only [List.length_cons] at hsz hge
    omega
  · unfold LRUCache.setKey
    rw [if_neg hge]
    unfold JsMap.deleteKey JsMap.size
    dsimp only
    simp only [List.length_append, List.length_cons, List.length_nil]
    have h2 := List.length_filter_le (fun e => e.1 != k) c.cache.entries
    unfold JsMap.size at hge
    omega

/-- Claim C8, amended: the generic LRUCache does enforce its capacity (set at
capacity evicts the earliest-inserted entry), but the receipt-verification
replay cache seenNonces is a plain unbounded Map: a verification recording a
fresh pair while no record has expired always grows it by exactly one entry,
with no eviction at any size. -/
theorem C8_lru_bounded_but_seenNonces_unbounded :
    (∀ (V : Type) (c : LRUCache V) (k : String) (v : V) (now : Int) (ttl : Option Int),
      c.cache.size ≤ c.maxSize → 1 ≤ c.maxSize →
      ((LRUCache.setKey c k v now ttl).cache).size ≤ c.maxSize) ∧
    (∀ (request : ActionRequestV0) (output : OutputV0) (receipt : ReceiptV0)
      (s : JsMap Int) (now : Int),
      receipt.schema = "vin.receipt.v0" → receipt.iat ≤ now + 60 → now ≤ receipt.exp →
      s.hasKey (nonceKey receipt) = false → (∀ e ∈ s.entries, now ≤ e.2) →
      ((verifyReceipt request output receipt s now).2).size = s.size + 1) := by
  constructor
  · exact fun V c k v now ttl h1 h2 => LRUCache_setKey_size_le c k v now ttl h1 h2
  · intro request output receipt s now hschema hiat hexp hfresh hlive
    unfold verifyReceipt
    have hs : (receipt.schema != "vin.receipt.v0") = false := by simp [hschema]
    rw [hs]
    simp only [Bool.false_eq_true, if_false, if_neg (by omega : ¬(receipt.iat > now + 60)),
      if_neg (by omega : ¬(receipt.exp < now)), hfresh]
    unfold JsMap.setKey
    rw [hfresh]
    simp only [Bool.false_eq_true, if_false, JsMap.size]
    rw [List.filter_append]
    rw [List.filter_eq_self.mpr fun e he => by
      have := hlive e he
      simp
      omega]
    rw [List.filter_cons_of_pos (by
      simp
      omega)]
    simp

theorem C8_lru_bounded_witness :
    ((verifyReceipt wReq wOut wReceipt (JsMap.empty : JsMap Int) 1700000100).2).size =
      (JsMap.empty : JsMap Int).size + 1 ∧
    ((LRUCache.setKey c8LruFixture "k1" "v1" 0 none).cache).size ≤ 1 :=
  ⟨C8_lru_bounded_but_seenNonces_unbounded.2 wReq wOut wReceipt JsMap.empty 1700000100
      rfl (by decide) (by decide) rfl (by simp [JsMap.empty]),
   C8_lru_bounded_but_seenNonces_unbounded.1 String c8LruFixture
      "k1" "v1" 0 none (by decide) (by decide)⟩

theorem cxKey_length (i : Nat) : (nonceKey (cxReceipt i)).length = 3 + i := by
  have h0 : nonceKey (cxReceipt i) = "pk" ++ ":" ++ cxNonce i := rfl
  have h1 : (cxNonce i).length = (List.replicate i 'a').length := rfl
  rw [h0, String.length_append, String.length_append, h1, List.length_replicate]
  have h2 : "pk".length = 2 := rfl
  have h3 : ":".length = 1 := rfl
  omega

theorem cxState_eq (n : Nat) : (List.range n).foldl cxStep JsMap.empty =
    ⟨(List.range n).map fun i => (nonceKey (cxReceipt i), (1000 : Int))⟩ := by
  induction n with
  | zero => rfl
  | succ n ih =>
    rw [List.range_succ, List.foldl_append, ih]
    simp only [List.foldl_cons, List.foldl_nil]
    unfold cxStep verifyReceipt
    have hs : ((cxReceipt n).schema != "vin.receipt.v0") = false := rfl
    rw [hs]
    have hfresh : (JsMap.hasKey ⟨(List.range n).map fun i =>
        (nonceKey (cxReceipt i), (1000 : Int))⟩ (nonceKey (cxReceipt n))) = false := by
      unfold JsMap.hasKey
      rw [Bool.eq_false_iff]
      intro hc
      rw [List.any_eq_true] at hc
      rcases hc with ⟨e, he, hbeq⟩
      rw [List.mem_map] at he
      rcases he with ⟨i, hi, rfl⟩
      rw [List.mem_range] at hi
      have heq : nonceKey (cxReceipt i) = nonceKey (cxReceipt n) := by simpa using hbeq
      have := congrArg String.length heq
      rw [cxKey_length, cxKey_length] at this
      omega
    have hiat : (cxReceipt n).iat = 0 := rfl
    have hexp : (cxReceipt n).exp = 1000 := rfl
    simp only [Bool.false_eq_true, if_false, if_neg (by rw [hiat]; norm_num :
      ¬((cxReceipt n).iat > (0 : Int) + 60)), if_neg (by rw [hexp]; norm_num :
      ¬((cxReceipt n).exp < (0 : Int))), hfresh]
    unfold JsMap.setKey
    rw [hfresh]
    simp only [Bool.false_eq_true, if_false]
    rw [List.filter_append]
    rw [List.filter_eq_self.mpr fun e he => by
      rw [List.mem_map] at he
      rcases he with ⟨i, _, rfl⟩
      simp]
    rw [List.filter_cons_of_pos (by rw [hexp]; simp)]
    conv_rhs => rw [List.map_append]
    rfl

/-- Claim C8 counterexample: 10 001 verifications with distinct unexpired pairs
leave 10 001 entries in the replay cache — it exceeds the claimed 10 000-entry
bound because seenNonces never evicts. -/
theorem C8_counterexample_cache_overflow :
    ((List.range 10001).foldl cxStep JsMap.empty).size = 10001 ∧ 10000 < 10001 := by
  constructor
  · rw [cxState_eq]
    simp [JsMap.size]
  · decide

theorem sha256Bytes_lt_256 (msg : List Nat) : ∀ b ∈ sha256Bytes msg, b < 256 := by
  intro b hb
  unfold sha256Bytes at hb
  rw [List.mem_flatMap] at hb
  rcases hb with ⟨w, _, hb⟩
  simp at hb
  rcases hb with h | h | h | h <;> omega

/-- Claim C9, amended: the sig of every attestation attest produces is an
Ed25519 signature over the SHA-256 of the UTF-8 bytes of the JSON.stringify
serialization of the attestation minus sig, in the field order of its
construction (not the RFC 8785 JCS serialization), and verify recomputes that
same serialize-then-hash before checking the signature with the ism_pubkey
embedded in the attestation, accepting it inside the drift window. -/
theorem C9_sig_over_stringify_hash (config : ISMConfig) (st : ISMState) (input : RawInput)
    (now : Int) (a : InputAttestation) (st2 : ISMState)
    (h : attest config st input now = (.ok a, st2)) :
    edVerify (fromBase64Url a.sig)
      (sha256Bytes (utf8Encode (jsonStringify (attestationPayloadJson a))))
      (fromHex a.ism_pubkey) = true ∧
    (∀ (nowv drift : Int), a.received_at ≤ nowv + drift →
      ismVerify a nowv drift = { valid := true, reason := none }) := by
  have ha : a = attestSuccess config st input now := by
    unfold attest at h
    dsimp only at h
    repeat' split at h
    all_goals first
      | (simp only [Prod.mk.injEq] at h
         obtain ⟨h1, -⟩ := h
         injection h1 with h1
         exact h1.symm)
      | (simp only [Prod.mk.injEq] at h
         obtain ⟨h1, -⟩ := h
         exact Except.noConfusion h1)
  subst ha
  have hpayload : attestationPayloadJson (attestSuccess config st input now) =
      attestationPayloadJson (attestPayloadRecord config st input now) := rfl
  have hsig : (attestSuccess config st input now).sig =
      toBase64Url (edSign (sha256Bytes (utf8Encode (jsonStringify
        (attestationPayloadJson (attestPayloadRecord config st input now)))))
        config.private_key) := rfl
  have hpk : (attestSuccess config st input now).ism_pubkey =
      toHex (edPublicKey config.private_key) := rfl
  have hver : edVerify (fromBase64Url (attestSuccess config st input now).sig)
      (sha256Bytes (utf8Encode (jsonStringify
        (attestationPayloadJson (attestSuccess config st input now)))))
      (fromHex (attestSuccess config st input now).ism_pubkey) = true := by
    rw [hpayload, hsig, hpk]
    rw [fromBase64Url_toBase64Url _ (edSign_lt_256 _ _ (sha256Bytes_lt_256 _))]
    rw [fromHex_toHex _ (edPublicKey_lt_256 _)]
    exact edVerify_edSign _ _
  refine ⟨hver, fun nowv drift hdrift => ?_⟩
  unfold ismVerify
  rw [if_neg (by omega : ¬((attestSuccess config st input now).received_at > nowv + drift))]
  simp only [hver, if_true]

/-- Claim C9 counterexample: for a concrete attestation produced by attest, the
serialization the signature covers is JSON.stringify of the payload, whose
bytes differ from the RFC 8785 (JCS) serialization, and the signature does not
verify against the SHA-256 of the JCS bytes. -/
theorem C9_not_jcs_counterexample :
    (attest c9Config ⟨0, []⟩ c9Input 1700005000).1 = .ok c9A ∧
    jsonStringify (attestationPayloadJson c9A) ≠ jcsSerialize (attestationPayloadJson c9A) ∧
    edVerify (fromBase64Url c9A.sig)
      (sha256Bytes (utf8Encode (jcsSerialize (attestationPayloadJson c9A))))
      (fromHex c9A.ism_pubkey) = false :=
  ⟨rfl, by decide, by decide⟩

/-- Witness for C9 (amended): the heartbeat attestation verifies against the
stringify-then-hash bytes with the embedded public key, and ismVerify accepts
it. -/
theorem C9_sig_over_stringify_hash_witness :
    edVerify (fromBase64Url c9A.sig)
      (sha256Bytes (utf8Encode (jsonStringify (attestationPayloadJson c9A))))
      (fromHex c9A.ism_pubkey) = true ∧
    ismVerify c9A 1700005000 300000 = { valid := true, reason := none } :=
  have h : attest c9Config ⟨0, []⟩ c9Input 1700005000 =
      (.ok c9A, (attest c9Config ⟨0, []⟩ c9Input 1700005000).2) := rfl
  ⟨(C9_sig_over_stringify_hash c9Config ⟨0, []⟩ c9Input 1700005000 c9A _ h).1,
   (C9_sig_over_stringify_hash c9Config ⟨0, []⟩ c9Input 1700005000 c9A _ h).2
      1700005000 300000 (by decide)⟩

end VIN
